import Mathlib

/-! # livekit-egress: callback registry and log-line classifier

A shallow embedding of

* `pkg/gstreamer/callbacks.go`: the `Callbacks` registry (`SetOnX` / `AddOnX` / `OnX`);
* `pkg/logging/handler.go`: `NewHandlerLogger`, the classifier of the lines a child process
  writes.

Conventions of the embedding.

* A Go `string` is its sequence of bytes (`GoString`); `len`, slicing, `strings.TrimLeft`,
  `strings.TrimRight`, `strings.Split` and `strings.HasSuffix` all work on bytes.
* A Go function value stored in the registry is a reference of an arbitrary type `F`; what a call
  of it does is given by an environment `Env`.  The whole program state is a `World`: the registry
  object plus the rest of the state (`U`), so a handler may change anything, the registry
  included (re-entrant registration).  A call that does not return (a panic, or a goroutine blocked
  forever) is `none`.
* `sync.RWMutex` is explicit state; executed sequentially, acquiring a lock that is not available
  never returns (`none`).
* Every `OnX` also returns the sequence of `Event`s it performed (lock operations and handler
  calls, in program order).  The events are a record of the execution and influence nothing.
-/

/-- A Go string: a sequence of bytes. -/
abbrev GoString := List Nat

/-- The bytes of an ASCII string literal. -/
def str (s : String) : GoString := s.toList.map Char.toNat

/-- A Go pointer or channel reference. -/
abbrev Ptr := Nat

namespace gstreamer

/-- State of a `sync.RWMutex`: whether a writer holds it and how many readers hold it. -/
structure RWMutex where
  writer : Bool
  readers : Nat
deriving DecidableEq, Repr

/-- The mutex held by nobody (the zero value). -/
def RWMutex.unlocked : RWMutex := ⟨false, 0⟩

/-- `mu.Lock()`: returns once there is neither a writer nor a reader. -/
def RWMutex.Lock (mu : RWMutex) : Option RWMutex :=
  if mu.writer = false ∧ mu.readers = 0 then some { mu with writer := true } else none

/-- `mu.Unlock()`: a fatal error when the mutex is not locked for writing. -/
def RWMutex.Unlock (mu : RWMutex) : Option RWMutex :=
  if mu.writer = true then some { mu with writer := false } else none

/-- `mu.RLock()`: returns once there is no writer. -/
def RWMutex.RLock (mu : RWMutex) : Option RWMutex :=
  if mu.writer = false then some { mu with readers := mu.readers + 1 } else none

/-- `mu.RUnlock()`: a fatal error when no reader holds the mutex. -/
def RWMutex.RUnlock (mu : RWMutex) : Option RWMutex :=
  if 0 < mu.readers then some { mu with readers := mu.readers - 1 } else none

/-- The `Callbacks` struct.  A `func` field is `none` when nil; a slice of funcs is a list. -/
structure Callbacks (F : Type) where
  mu : RWMutex
  GstReady : Ptr
  BuildReady : Ptr
  onError : Option F
  onStop : List F
  onTrackSubscribed : List F
  onTrackForwardRTP : List F
  onTrackAdded : List F
  onTrackMuted : List F
  onTrackUnmuted : List F
  onTrackRemoved : List F
  onEOSSent : Option F
  addBin : Option F
  removeBin : Option F
deriving DecidableEq, Repr

/-- The program state: the registry `c` and everything else. -/
structure World (F U : Type) where
  c : Callbacks F
  rest : U
deriving DecidableEq, Repr

/-- What one `OnX` call did, in program order. -/
inductive Event (F A R : Type) where
  | RLock
  | RUnlock
  | call (f : F) (args : A) (ret : R)
deriving DecidableEq, Repr

/-- Modelled from the spec: `errors.ErrArray` of `pkg/errors`, the aggregate error container
("each handler's error (if any) is collected into an aggregate error container"). -/
structure ErrArray (E : Type) where
  errs : List E
deriving DecidableEq, Repr

/-- Modelled from the spec: `ErrArray.Check(err)` of `pkg/errors` records `err` when it is
non-nil and does nothing otherwise. -/
def ErrArray.Check {E : Type} (e : ErrArray E) (err : Option E) : ErrArray E :=
  match err with
  | none => e
  | some x => ⟨e.errs ++ [x]⟩

/-- Modelled from the spec: `ErrArray.ToError()` of `pkg/errors`: "the aggregate is returned as a
single combined error, or as no error if the container is empty".  How the recorded errors are
combined into one error value is the parameter `combine`. -/
def ErrArray.ToError {E : Type} (combine : List E → E) (e : ErrArray E) : Option E :=
  match e.errs with
  | [] => none
  | x :: xs => some (combine (x :: xs))

/-- Everything the registry calls but does not define: what a call of each stored function value
does to the program state, one entry per Go signature, and how `pkg/errors` combines errors. -/
structure Env (F U E : Type) where
  /-- A call of a `func(error)`. -/
  callError : F → Option E → World F U → Option (World F U)
  /-- A call of a `func() error`, with the error it returns. -/
  callStop : F → Unit → World F U → Option (World F U × Option E)
  /-- A call of a `func(*webrtc.TrackRemote, *lksdk.RemoteTrackPublication, *lksdk.RemoteParticipant)`. -/
  callTrackSubscribed : F → Ptr × Ptr × Ptr → World F U → Option (World F U)
  /-- A call of a `func(*webrtc.TrackRemote, *rtp.Packet)`. -/
  callTrackForwardRTP : F → Ptr × Ptr → World F U → Option (World F U)
  /-- A call of a `func(*config.TrackSource)`. -/
  callTrackAdded : F → Ptr → World F U → Option (World F U)
  /-- A call of a `func(string)`. -/
  callString : F → GoString → World F U → Option (World F U)
  /-- A call of a `func()`. -/
  callVoid : F → Unit → World F U → Option (World F U)
  /-- The combined error `ErrArray.ToError` builds. -/
  combine : List E → E

variable {F U E A : Type}

/-- The statement `c.mu.Lock()`. -/
def Callbacks.muLock (c : Callbacks F) : Option (Callbacks F) :=
  c.mu.Lock.map fun m => { c with mu := m }

/-- The statement `c.mu.Unlock()`. -/
def Callbacks.muUnlock (c : Callbacks F) : Option (Callbacks F) :=
  c.mu.Unlock.map fun m => { c with mu := m }

/-- The statement `c.mu.RLock()`. -/
def Callbacks.muRLock (c : Callbacks F) : Option (Callbacks F) :=
  c.mu.RLock.map fun m => { c with mu := m }

/-- The statement `c.mu.RUnlock()`. -/
def Callbacks.muRUnlock (c : Callbacks F) : Option (Callbacks F) :=
  c.mu.RUnlock.map fun m => { c with mu := m }

/-- The method `SetOnError`. -/
def Callbacks.SetOnError (c : Callbacks F) (f : Option F) : Option (Callbacks F) := do
  let c ← c.muLock
  let c := { c with onError := f }
  c.muUnlock

/-- The method `AddOnStop`. -/
def Callbacks.AddOnStop (c : Callbacks F) (f : F) : Option (Callbacks F) := do
  let c ← c.muLock
  let c := { c with onStop := c.onStop ++ [f] }
  c.muUnlock

/-- The method `AddOnTrackSubscribed`. -/
def Callbacks.AddOnTrackSubscribed (c : Callbacks F) (f : F) : Option (Callbacks F) := do
  let c ← c.muLock
  let c := { c with onTrackSubscribed := c.onTrackSubscribed ++ [f] }
  c.muUnlock

/-- The method `AddOnTrackForwardRTP`. -/
def Callbacks.AddOnTrackForwardRTP (c : Callbacks F) (f : F) : Option (Callbacks F) := do
  let c ← c.muLock
  let c := { c with onTrackForwardRTP := c.onTrackForwardRTP ++ [f] }
  c.muUnlock

/-- The method `AddOnTrackAdded`. -/
def Callbacks.AddOnTrackAdded (c : Callbacks F) (f : F) : Option (Callbacks F) := do
  let c ← c.muLock
  let c := { c with onTrackAdded := c.onTrackAdded ++ [f] }
  c.muUnlock

/-- The method `AddOnTrackMuted`. -/
def Callbacks.AddOnTrackMuted (c : Callbacks F) (f : F) : Option (Callbacks F) := do
  let c ← c.muLock
  let c := { c with onTrackMuted := c.onTrackMuted ++ [f] }
  c.muUnlock

/-- The method `AddOnTrackUnmuted`. -/
def Callbacks.AddOnTrackUnmuted (c : Callbacks F) (f : F) : Option (Callbacks F) := do
  let c ← c.muLock
  let c := { c with onTrackUnmuted := c.onTrackUnmuted ++ [f] }
  c.muUnlock

/-- The method `AddOnTrackRemoved`. -/
def Callbacks.AddOnTrackRemoved (c : Callbacks F) (f : F) : Option (Callbacks F) := do
  let c ← c.muLock
  let c := { c with onTrackRemoved := c.onTrackRemoved ++ [f] }
  c.muUnlock

/-- The method `SetOnEOSSent`. -/
def Callbacks.SetOnEOSSent (c : Callbacks F) (f : Option F) : Option (Callbacks F) := do
  let c ← c.muLock
  let c := { c with onEOSSent := f }
  c.muUnlock

/-- The loop `for _, f := range fs { f(args...) }` over a snapshot `fs`. -/
def rangeCall (call : F → A → World F U → Option (World F U)) (args : A) :
    List F → World F U → Option (World F U × List (Event F A Unit))
  | [], w => some (w, [])
  | f :: fs, w => do
    let w ← call f args w
    let (w, events) ← rangeCall call args fs w
    pure (w, Event.call f args () :: events)

/-- The loop `for _, f := range onStop { errArray.Check(f()) }`. -/
def rangeStop (call : F → Unit → World F U → Option (World F U × Option E)) :
    List F → ErrArray E → World F U →
      Option (World F U × ErrArray E × List (Event F Unit (Option E)))
  | [], errArray, w => some (w, errArray, [])
  | f :: fs, errArray, w => do
    let (w, err) ← call f () w
    let (w, errArray, events) ← rangeStop call fs (errArray.Check err) w
    pure (w, errArray, Event.call f () err :: events)

/-- The method `OnError`. -/
def OnError (env : Env F U E) (err : Option E) (w : World F U) :
    Option (World F U × List (Event F (Option E) Unit)) := do
  let c ← w.c.muRLock
  let onError := c.onError
  let c ← c.muRUnlock
  let w := { w with c := c }
  match onError with
  | some f =>
    let w ← env.callError f err w
    pure (w, [Event.RLock, Event.RUnlock, Event.call f err ()])
  | none => pure (w, [Event.RLock, Event.RUnlock])

/-- The method `OnStop`: the world afterwards, the returned error and the events. -/
def OnStop (env : Env F U E) (w : World F U) :
    Option (World F U × Option E × List (Event F Unit (Option E))) := do
  let c ← w.c.muRLock
  let onStop := c.onStop
  let c ← c.muRUnlock
  let w := { w with c := c }
  let (w, errArray, events) ← rangeStop env.callStop onStop ⟨[]⟩ w
  pure (w, errArray.ToError env.combine, Event.RLock :: Event.RUnlock :: events)

/-- The method `OnTrackSubscribed`. -/
def OnTrackSubscribed (env : Env F U E) (track pub rp : Ptr) (w : World F U) :
    Option (World F U × List (Event F (Ptr × Ptr × Ptr) Unit)) := do
  let c ← w.c.muRLock
  let onTrackSubscribed := c.onTrackSubscribed
  let c ← c.muRUnlock
  let w := { w with c := c }
  let (w, events) ← rangeCall env.callTrackSubscribed (track, pub, rp) onTrackSubscribed w
  pure (w, Event.RLock :: Event.RUnlock :: events)

/-- The method `OnTrackForwardRTP`. -/
def OnTrackForwardRTP (env : Env F U E) (track packet : Ptr) (w : World F U) :
    Option (World F U × List (Event F (Ptr × Ptr) Unit)) := do
  let c ← w.c.muRLock
  let onTrackForwardRTP := c.onTrackForwardRTP
  let c ← c.muRUnlock
  let w := { w with c := c }
  let (w, events) ← rangeCall env.callTrackForwardRTP (track, packet) onTrackForwardRTP w
  pure (w, Event.RLock :: Event.RUnlock :: events)

/-- The method `OnTrackAdded`. -/
def OnTrackAdded (env : Env F U E) (ts : Ptr) (w : World F U) :
    Option (World F U × List (Event F Ptr Unit)) := do
  let c ← w.c.muRLock
  let onTrackAdded := c.onTrackAdded
  let c ← c.muRUnlock
  let w := { w with c := c }
  let (w, events) ← rangeCall env.callTrackAdded ts onTrackAdded w
  pure (w, Event.RLock :: Event.RUnlock :: events)

/-- The method `OnTrackMuted`. -/
def OnTrackMuted (env : Env F U E) (trackID : GoString) (w : World F U) :
    Option (World F U × List (Event F GoString Unit)) := do
  let c ← w.c.muRLock
  let onTrackMuted := c.onTrackMuted
  let c ← c.muRUnlock
  let w := { w with c := c }
  let (w, events) ← rangeCall env.callString trackID onTrackMuted w
  pure (w, Event.RLock :: Event.RUnlock :: events)

/-- The method `OnTrackUnmuted`. -/
def OnTrackUnmuted (env : Env F U E) (trackID : GoString) (w : World F U) :
    Option (World F U × List (Event F GoString Unit)) := do
  let c ← w.c.muRLock
  let onTrackUnmuted := c.onTrackUnmuted
  let c ← c.muRUnlock
  let w := { w with c := c }
  let (w, events) ← rangeCall env.callString trackID onTrackUnmuted w
  pure (w, Event.RLock :: Event.RUnlock :: events)

/-- The method `OnTrackRemoved`. -/
def OnTrackRemoved (env : Env F U E) (trackID : GoString) (w : World F U) :
    Option (World F U × List (Event F GoString Unit)) := do
  let c ← w.c.muRLock
  let onTrackRemoved := c.onTrackRemoved
  let c ← c.muRUnlock
  let w := { w with c := c }
  let (w, events) ← rangeCall env.callString trackID onTrackRemoved w
  pure (w, Event.RLock :: Event.RUnlock :: events)

/-- The method `OnEOSSent`. -/
def OnEOSSent (env : Env F U E) (w : World F U) :
    Option (World F U × List (Event F Unit Unit)) := do
  let c ← w.c.muRLock
  let onEOSSent := c.onEOSSent
  let c ← c.muRUnlock
  let w := { w with c := c }
  match onEOSSent with
  | some f =>
    let w ← env.callVoid f () w
    pure (w, [Event.RLock, Event.RUnlock, Event.call f () ()])
  | none => pure (w, [Event.RLock, Event.RUnlock])

/-- The zero value `Callbacks{}`: nothing registered, nothing locked. -/
def Callbacks.zero : Callbacks F :=
  { mu := RWMutex.unlocked, GstReady := 0, BuildReady := 0, onError := none, onStop := [],
    onTrackSubscribed := [], onTrackForwardRTP := [], onTrackAdded := [], onTrackMuted := [],
    onTrackUnmuted := [], onTrackRemoved := [], onEOSSent := none, addBin := none,
    removeBin := none }

/-- A statement `c.M(...)` in the body of a handler, `M` a method that only touches the
registry. -/
def World.onRegistry (w : World F U) (m : Callbacks F → Option (Callbacks F)) :
    Option (World F U) :=
  (m w.c).map fun c => { w with c := c }

/-- The handler a call event invoked. -/
def Event.callee {R : Type} : Event F A R → Option F
  | Event.call f _ _ => some f
  | _ => none

/-- The handlers a sequence of events called, in the order of the calls. -/
def calls {R : Type} (events : List (Event F A R)) : List F :=
  events.filterMap Event.callee

/-- The handlers `hs` return when they are called with `args` while the lock is free, and
leave the lock free. -/
def Returns (call : F → A → World F U → Option (World F U)) (args : A) (hs : List F) : Prop :=
  ∀ h ∈ hs, ∀ w : World F U, w.c.mu = RWMutex.unlocked →
    ∃ w', call h args w = some w' ∧ w'.c.mu = RWMutex.unlocked

/-- The handlers `hs` called one after the other, in the order of `hs`, each exactly once and
each on the program state the one before it left (`call` is a call of a handler with the
arguments of the dispatch): the state after the last one, when all of them return. -/
def runInOrder (call : F → World F U → Option (World F U)) (hs : List F) (w : World F U) :
    Option (World F U) :=
  hs.foldlM (fun w h => call h w) w

/-- Fan-out in registration order: registering `hs = h1..hN` with `add`, in that order, on the
registry `c0` succeeds, and a dispatch `dispatch` with arguments `args` on the result is exactly
the calls `h1(args), ..., hN(args)`, in that order: it returns when they all return, the
program state it leaves is the one these calls leave (`runInOrder`), and its events are the
read lock taken and released, then one call of each of `h1, ..., hN`, in that order, each with
`args`; and it does return when the handlers return (`Returns`). -/
def FansOut (add : Callbacks F → F → Option (Callbacks F))
    (call : F → A → World F U → Option (World F U))
    (dispatch : World F U → Option (World F U × List (Event F A Unit)))
    (args : A) (hs : List F) (c0 : Callbacks F) (rest : U) : Prop :=
  ∃ c, hs.foldlM add c0 = some c ∧
    dispatch ⟨c, rest⟩ =
      ((runInOrder (fun h => call h args) hs ⟨c, rest⟩).map fun w' =>
        (w', Event.RLock :: Event.RUnlock :: hs.map fun h => Event.call h args ())) ∧
    (Returns call args hs → ∃ w', dispatch ⟨c, rest⟩ =
      some (w', Event.RLock :: Event.RUnlock :: hs.map fun h => Event.call h args ()))

/-- Snapshot isolation of the dispatch `dispatch` (the world afterwards and the handlers it
called, in order) over the list `list` of the registry, `call` being a call of a handler with
the arguments of the dispatch.

* A dispatch that can take the read lock is exactly the calls, in order, of the handlers that
  were in the list when it started, whatever these handlers do to the list meanwhile: it returns
  when they return, and the program state it leaves is the one they leave (`runInOrder` over
  the list of the start), so no handler registered during the dispatch has run in it.
* A dispatch that returns reports exactly the handlers that were in the list when it started.
* If the lock is free, every handler returns, leaves the lock free and only appends to the list
  (the registry has no operation that removes a handler), and a handler `h` of the list
  registers `g` (after `h` has run, `g` is among the handlers appended), then the dispatch
  returns, in the state `w1` that the handlers of the start leave; `g` is in the list of `w1`,
  behind every handler that was in it when the dispatch started; and the next dispatch returns,
  in the state that all those handlers and then `g` leave. -/
def SnapshotIsolation (list : Callbacks F → List F)
    (call : F → World F U → Option (World F U))
    (dispatch : World F U → Option (World F U × List F)) : Prop :=
  (∀ w, w.c.mu.writer = false →
    dispatch w = (runInOrder call (list w.c) w).map fun w1 => (w1, list w.c)) ∧
  (∀ w w1 called, dispatch w = some (w1, called) → called = list w.c) ∧
  ∀ (w : World F U) (h g : F),
    w.c.mu = RWMutex.unlocked →
    h ∈ list w.c →
    (∀ f w1, w1.c.mu = RWMutex.unlocked →
      ∃ w2, call f w1 = some w2 ∧ w2.c.mu = RWMutex.unlocked ∧ ∃ m, list w2.c = list w1.c ++ m) →
    (∀ w1 w2, call h w1 = some w2 → ∃ m k, list w2.c = list w1.c ++ m ++ g :: k) →
    ∃ w1 w2 m k, runInOrder call (list w.c) w = some w1 ∧
      dispatch w = some (w1, list w.c) ∧ list w1.c = list w.c ++ m ++ g :: k ∧
      runInOrder call (list w.c ++ m ++ g :: k) w1 = some w2 ∧
      dispatch w1 = some (w2, list w.c ++ m ++ g :: k)

/-- The body of a handler that only records that it ran: `f` is appended to the rest of the
state. -/
def record (f : Nat) (w : World Nat (List Nat)) : World Nat (List Nat) :=
  { w with rest := w.rest ++ [f] }

/-- An example program.  Function values are numbers and the rest of the state is the list of the
handlers that ran.  Every handler records that it ran.  In addition, handler `1` of each
multi-subscriber kind registers handler `9` for its own kind (of the three kinds that take a
`func(string)`: `1` calls `AddOnTrackMuted(9)`, `2` calls `AddOnTrackUnmuted(9)` and `3` calls
`AddOnTrackRemoved(9)`), and the stop handler `2` returns the error `7`.  Errors are numbers and
are combined by a positional encoding of their list. -/
def exampleEnv : Env Nat (List Nat) Nat where
  callError := fun f _ w => some (record f w)
  callStop := fun f _ w =>
    if f = 1 then ((record f w).onRegistry fun c => c.AddOnStop 9).map fun w => (w, none)
    else some (record f w, if f = 2 then some 7 else none)
  callTrackSubscribed := fun f _ w =>
    if f = 1 then (record f w).onRegistry fun c => c.AddOnTrackSubscribed 9
    else some (record f w)
  callTrackForwardRTP := fun f _ w =>
    if f = 1 then (record f w).onRegistry fun c => c.AddOnTrackForwardRTP 9
    else some (record f w)
  callTrackAdded := fun f _ w =>
    if f = 1 then (record f w).onRegistry fun c => c.AddOnTrackAdded 9
    else some (record f w)
  callString := fun f _ w =>
    if f = 1 then (record f w).onRegistry fun c => c.AddOnTrackMuted 9
    else if f = 2 then (record f w).onRegistry fun c => c.AddOnTrackUnmuted 9
    else if f = 3 then (record f w).onRegistry fun c => c.AddOnTrackRemoved 9
    else some (record f w)
  callVoid := fun f _ w => some (record f w)
  combine := fun errs => errs.foldl (fun n e => 100 * n + e) 0

/-- A second example program: the `func(string)` handler `1` calls `OnTrackUnmuted` with the
track it is given, the handlers of that nested dispatch being those of `exampleEnv`; every
other handler is as in `exampleEnv`. -/
def nestedEnv : Env Nat (List Nat) Nat :=
  { exampleEnv with
    callString := fun f trackID w =>
      if f = 1 then (OnTrackUnmuted exampleEnv trackID w).map Prod.fst
      else exampleEnv.callString f trackID w }

/-- A method that takes the write lock and releases it before it returns: called with the lock
free it returns with the lock free again, and called while a writer or a reader holds the lock
it does not return. -/
def TakesWriteLock (m : Callbacks F → Option (Callbacks F)) : Prop :=
  ∀ c, (c.mu = RWMutex.unlocked → ∃ c', m c = some c' ∧ c'.mu = RWMutex.unlocked) ∧
    (c.mu ≠ RWMutex.unlocked → m c = none)

/-- A dispatch (over the handlers `list`, `call` being a call of a handler with the arguments
of the dispatch) that takes the read lock once and releases it before it calls a handler.

* It does not return while a writer holds the lock.
* When it returns, its first event is the `RLock`, its second the `RUnlock`, and every later
  event is a call of a handler.
* Called with the lock free, it returns, with the lock free, as soon as each handler returns
  and leaves the lock free when it is entered with the lock free: nothing is asked of a
  handler entered with the lock taken, so no handler is. -/
def LockReleasedBeforeCalls {R : Type} (list : Callbacks F → List F)
    (call : F → World F U → Option (World F U))
    (dispatch : World F U → Option (World F U × List (Event F A R))) : Prop :=
  (∀ w, w.c.mu.writer = true → dispatch w = none) ∧
  (∀ w w' events, dispatch w = some (w', events) →
    ∃ tail, events = Event.RLock :: Event.RUnlock :: tail ∧
      ∀ e ∈ tail, ∃ f args ret, e = Event.call f args ret) ∧
  (∀ w, w.c.mu = RWMutex.unlocked →
    (∀ f ∈ list w.c, ∀ w1, w1.c.mu = RWMutex.unlocked →
      ∃ w2, call f w1 = some w2 ∧ w2.c.mu = RWMutex.unlocked) →
    ∃ w' events, dispatch w = some (w', events) ∧ w'.c.mu = RWMutex.unlocked)

/-- The body of a handler that only records, in the rest of the state, the state of the
registry's mutex it finds. -/
def probe (w : World F (List RWMutex)) : World F (List RWMutex) :=
  { w with rest := w.rest ++ [w.c.mu] }

/-- A program whose handlers are all `probe`. -/
def lockProbe : Env F (List RWMutex) Unit where
  callError := fun _ _ w => some (probe w)
  callStop := fun _ _ w => some (probe w, none)
  callTrackSubscribed := fun _ _ w => some (probe w)
  callTrackForwardRTP := fun _ _ w => some (probe w)
  callTrackAdded := fun _ _ w => some (probe w)
  callString := fun _ _ w => some (probe w)
  callVoid := fun _ _ w => some (probe w)
  combine := fun _ => ()

/-- The handlers of a dispatch of the program `lockProbe` find the mutex as it was before the
dispatch: the dispatch returns, and the rest of the state has one record of that state of the
mutex for each handler of `list`. -/
def HandlersFindLock {R : Type} (list : Callbacks F → List F)
    (dispatch : World F (List RWMutex) →
      Option (World F (List RWMutex) × List (Event F A R))) : Prop :=
  ∀ w, w.c.mu.writer = false →
    ∃ events, dispatch w =
      some (⟨w.c, w.rest ++ List.replicate (list w.c).length w.c.mu⟩, events)

/-- A method that changes the registry by `change` and by nothing else: called with the lock
free it returns the registry `change c`, and whenever it returns, that is what it returns. -/
def ChangesOnly (m : Callbacks F → Option (Callbacks F))
    (change : Callbacks F → Callbacks F) : Prop :=
  ∀ c, (c.mu = RWMutex.unlocked → m c = some (change c)) ∧
    ∀ c', m c = some c' → c' = change c

/-- A dispatch (the world afterwards and the handlers it called, in order) that calls the
handlers of `list` and no other, and that leaves the registry as it was when no handler changes
the registry. -/
def InvokesOnly (list : Callbacks F → List F) (call : F → World F U → Option (World F U))
    (dispatch : World F U → Option (World F U × List F)) : Prop :=
  (∀ w w' called, dispatch w = some (w', called) → called = list w.c) ∧
  (∀ w w' called, (∀ f w1 w2, call f w1 = some w2 → w2.c = w1.c) →
    dispatch w = some (w', called) → w'.c = w.c)

end gstreamer

namespace logging

/-- The constant `logError` (an `iota` block: 0, 1, 2, 3). -/
def logError : Nat := 0

/-- The constant `logWarn`. -/
def logWarn : Nat := 1

/-- The constant `logInfo`. -/
def logInfo : Nat := 2

/-- The constant `ignore`. -/
def ignore : Nat := 3

/-- The map `actions`, as its key/value pairs. -/
def actions : List (GoString × Nat) :=
  [(str "0:00:", ignore),
   (str "te_au", ignore),
   (str "turnc", logInfo),
   (str "ice E", logInfo),
   (str "SDK 2", logInfo),
   (str "(egre", logWarn)]

/-- The index expression `m[key]` of a `map[string]int`: the zero value for an absent key. -/
def index (m : List (GoString × Nat)) (key : GoString) : Nat :=
  match m with
  | [] => 0
  | (k, v) :: rest => if key = k then v else index rest key

/-- The function `strings.TrimRight(s, cutset)` for an ASCII `cutset`: `s` without its trailing
bytes that are in `cutset`. -/
def TrimRight (s cutset : GoString) : GoString :=
  s.rdropWhile fun b => decide (b ∈ cutset)

/-- The function `strings.TrimLeft(s, cutset)` for an ASCII `cutset`: `s` without its leading
bytes that are in `cutset`. -/
def TrimLeft (s cutset : GoString) : GoString :=
  s.dropWhile fun b => decide (b ∈ cutset)

/-- The function `strings.Split(s, sep)` for a separator of one byte `sep`: the substrings
between the separators, one more than there are separators in `s`. -/
def Split : GoString → Nat → List GoString
  | [], _ => [[]]
  | b :: s, sep =>
    if b = sep then [] :: Split s sep
    else
      match Split s sep with
      | [] => [[b]]
      | x :: xs => (b :: x) :: xs

/-- The function `strings.HasSuffix(s, suffix)`. -/
def HasSuffix (s suffix : GoString) : Bool :=
  suffix.isSuffixOf s

/-- A `logger.Logger`: the keys and values attached to every message it logs. -/
structure Logger where
  keysAndValues : List GoString
deriving DecidableEq, Repr

/-- The method `Logger.WithValues(keysAndValues...)`. -/
def Logger.WithValues (l : Logger) (keysAndValues : List GoString) : Logger :=
  ⟨l.keysAndValues ++ keysAndValues⟩

/-- What the callback writes: a line on standard output (`fmt.Println`) or a call of the leveled
logger `l` (`Infow(msg)`, `Warnw(msg, err)`, `Errorw(msg, err)`). -/
inductive Output where
  | Println (line : GoString)
  | Infow (l : Logger) (msg : GoString)
  | Warnw (l : Logger) (msg : GoString) (err : Option GoString)
  | Errorw (l : Logger) (msg : GoString) (err : Option GoString)
deriving DecidableEq, Repr

/-- One iteration of the loop over `lines`: the outputs for `line`. -/
def handleLine (l : Logger) (line : GoString) : List Output :=
  if HasSuffix line (str "\x7d") then
    [Output.Println line]
  else
    let action := logError
    let action := if line.length > 5 then index actions (line.take 5) else action
    if action = ignore then []
    else if action = logInfo then [Output.Infow l line]
    else if action = logWarn then [Output.Warnw l line none]
    else if action = logError then [Output.Errorw l line none]
    else []

/-- The loop `for _, line := range lines`. -/
def rangeLines (l : Logger) : List GoString → List Output
  | [] => []
  | line :: lines => handleLine l line ++ rangeLines l lines

/-- The function `NewHandlerLogger`: the callback given to `medialogutils.NewCmdLogger`, as the
outputs it produces for a chunk `s`.  `GetLogger` is the logger `logger.GetLogger()` returns. -/
def NewHandlerLogger (GetLogger : Logger) (handlerID egressID : GoString) :
    GoString → List Output :=
  let l := GetLogger.WithValues [str "handlerID", handlerID, str "egressID", egressID]
  fun s =>
    let lines := Split (TrimLeft (TrimRight s (str "\n")) (str "\n")) 10
    rangeLines l lines

/-- The severities of the spec's classification table. -/
inductive Action where
  | Ignore
  | Info
  | Warn
  | Error
deriving DecidableEq, Repr

/-- The classification table in the spec's words: the action of a 5-character key, `Error` for
anything else. -/
def tableAction (key : GoString) : Action :=
  if key = str "0:00:" ∨ key = str "te_au" then Action.Ignore
  else if key = str "turnc" ∨ key = str "ice E" ∨ key = str "SDK 2" then Action.Info
  else if key = str "(egre" then Action.Warn
  else Action.Error

/-- The dispatch per action in the spec's words: `Ignore` makes no call; `Info`, `Warn` and
`Error` make one call of the leveled sink `l` at that severity with the line as message. -/
def dispatchAction (l : Logger) (line : GoString) : Action → List Output
  | Action.Ignore => []
  | Action.Info => [Output.Infow l line]
  | Action.Warn => [Output.Warnw l line none]
  | Action.Error => [Output.Errorw l line none]

end logging

/-! # Theorems: the callback registry -/

namespace gstreamer

variable {F U E A : Type}

/-! ## Lock and registration lemmas -/

theorem muRLock_muRUnlock (c : Callbacks F) (h : c.mu.writer = false) :
    c.muRLock.bind Callbacks.muRUnlock = some c := by
  obtain ⟨⟨wr, rd⟩, _⟩ := c
  simp only at h
  subst h
  simp [Callbacks.muRLock, Callbacks.muRUnlock, RWMutex.RLock, RWMutex.RUnlock]

theorem muRLock_eq (c : Callbacks F) (h : c.mu.writer = false) :
    c.muRLock = some { c with mu := ⟨false, c.mu.readers + 1⟩ } := by
  obtain ⟨⟨wr, rd⟩, _⟩ := c
  simp only at h
  subst h
  simp [Callbacks.muRLock, RWMutex.RLock]

theorem muRUnlock_eq (c : Callbacks F) (n : Nat) :
    ({ c with mu := ⟨false, n + 1⟩ } : Callbacks F).muRUnlock = some { c with mu := ⟨false, n⟩ } := by
  simp [Callbacks.muRUnlock, RWMutex.RUnlock]

theorem muLock_eq (c : Callbacks F) (h : c.mu = RWMutex.unlocked) :
    c.muLock = some { c with mu := ⟨true, 0⟩ } := by
  simp [Callbacks.muLock, RWMutex.Lock, h, RWMutex.unlocked]

theorem AddOnStop_eq (c : Callbacks F) (f : F) (h : c.mu = RWMutex.unlocked) :
    c.AddOnStop f = some { c with onStop := c.onStop ++ [f] } := by
  obtain ⟨mu, _⟩ := c
  simp only at h
  subst h
  simp [Callbacks.AddOnStop, Callbacks.muLock, Callbacks.muUnlock, RWMutex.Lock, RWMutex.Unlock,
    RWMutex.unlocked]

theorem foldlM_AddOnStop (hs : List F) (c : Callbacks F) (h : c.mu = RWMutex.unlocked) :
    hs.foldlM Callbacks.AddOnStop c = some { c with onStop := c.onStop ++ hs } := by
  induction hs generalizing c with
  | nil => simp
  | cons x xs ih =>
    rw [List.foldlM_cons, AddOnStop_eq c x h]
    simp only [Option.bind_eq_bind, Option.some_bind]
    rw [ih { c with onStop := c.onStop ++ [x] } h]
    simp

/-! ## The dispatch loops -/

/-- The events of a loop over `fs` are the calls of `fs`, in order, whatever the handlers do. -/
theorem rangeCall_events (call : F → A → World F U → Option (World F U)) (args : A)
    (fs : List F) (w w' : World F U) (events : List (Event F A Unit))
    (h : rangeCall call args fs w = some (w', events)) :
    events = fs.map fun f => Event.call f args () := by
  induction fs generalizing w events with
  | nil => simp [rangeCall] at h; simp [h.2]
  | cons f fs ih =>
    simp only [rangeCall, Option.bind_eq_bind, Option.bind_eq_some, Option.pure_def] at h
    obtain ⟨w1, _, ⟨w2, ev⟩, h2, h3⟩ := h
    simp only [Option.some.injEq, Prod.mk.injEq] at h3
    rw [← h3.2, ih w1 ev (h3.1 ▸ h2)]
    simp

/-- A loop over handlers that return and keep an invariant `P` returns and keeps `P`. -/
theorem rangeCall_returns (call : F → A → World F U → Option (World F U)) (args : A)
    (P : World F U → Prop) (fs : List F)
    (hret : ∀ f ∈ fs, ∀ w, P w → ∃ w', call f args w = some w' ∧ P w')
    (w : World F U) (hw : P w) :
    ∃ w', rangeCall call args fs w = some (w', fs.map fun f => Event.call f args ()) ∧ P w' := by
  induction fs generalizing w with
  | nil => exact ⟨w, rfl, hw⟩
  | cons f fs ih =>
    obtain ⟨w1, h1, hP1⟩ := hret f (List.mem_cons_self f fs) w hw
    obtain ⟨w2, h2, hP2⟩ := ih (fun g hg => hret g (List.mem_cons_of_mem f hg)) w1 hP1
    exact ⟨w2, by simp [rangeCall, h1, h2], hP2⟩

/-- The loop of `OnStop` over handlers that return and keep an invariant `P`: every handler is
called, in order, and the container ends with the non-nil errors they returned appended. -/
theorem rangeStop_returns (call : F → Unit → World F U → Option (World F U × Option E))
    (P : World F U → Prop) (fs : List F)
    (hret : ∀ f ∈ fs, ∀ w, P w → ∃ w' err, call f () w = some (w', err) ∧ P w')
    (errArray : ErrArray E) (w : World F U) (hw : P w) :
    ∃ w' rets, rets.length = fs.length ∧ P w' ∧
      rangeStop call fs errArray w =
        some (w', ⟨errArray.errs ++ rets.filterMap id⟩,
          List.zipWith (fun f ret => Event.call f () ret) fs rets) := by
  induction fs generalizing w errArray with
  | nil => exact ⟨w, [], rfl, hw, by simp [rangeStop]⟩
  | cons f fs ih =>
    obtain ⟨w1, err, h1, hP1⟩ := hret f (List.mem_cons_self f fs) w hw
    obtain ⟨w2, rets, hlen, hP2, h2⟩ :=
      ih (fun g hg => hret g (List.mem_cons_of_mem f hg)) (errArray.Check err) w1 hP1
    refine ⟨w2, err :: rets, by simp [hlen], hP2, ?_⟩
    cases err with
    | none =>
      simp only [ErrArray.Check] at h2
      simp [rangeStop, h1, ErrArray.Check, h2]
    | some e =>
      simp only [ErrArray.Check] at h2
      simp [rangeStop, h1, ErrArray.Check, h2]

/-! ## What each `OnX` is once the lock is known to be available -/

theorem OnStop_eq (env : Env F U E) (w : World F U) (hw : w.c.mu.writer = false) :
    OnStop env w = (rangeStop env.callStop w.c.onStop ⟨[]⟩ w).map fun r =>
      (r.1, r.2.1.ToError env.combine, Event.RLock :: Event.RUnlock :: r.2.2) := by
  obtain ⟨⟨⟨wr, rd⟩, _⟩, rest⟩ := w
  simp only at hw
  subst hw
  simp only [OnStop, Callbacks.muRLock, Callbacks.muRUnlock, RWMutex.RLock, RWMutex.RUnlock,
    if_true, Option.map_some', Option.bind_eq_bind, Option.some_bind, Nat.lt_add_one,
    Nat.add_sub_cancel, Option.pure_def, Nat.zero_lt_succ]
  generalize rangeStop env.callStop _ _ _ = r
  cases r <;> rfl

theorem ToError_eq_none_iff (combine : List E → E) (rets : List (Option E)) :
    ErrArray.ToError combine ⟨rets.filterMap id⟩ = none ↔ ∀ r ∈ rets, r = none := by
  cases h : rets.filterMap id with
  | nil =>
    simp only [ErrArray.ToError, true_iff]
    intro r hr
    cases r with
    | none => rfl
    | some e =>
      have : e ∈ rets.filterMap id := List.mem_filterMap.mpr ⟨some e, hr, rfl⟩
      simp [h] at this
  | cons x xs =>
    simp only [ErrArray.ToError, reduceCtorEq, false_iff]
    intro hall
    have hx : x ∈ rets.filterMap id := by simp [h]
    obtain ⟨r, hr, hrx⟩ := List.mem_filterMap.mp hx
    rw [hall r hr] at hrx
    simp at hrx

theorem ToError_of_ne_nil (combine : List E → E) (errs : List E) (h : errs ≠ []) :
    ErrArray.ToError combine ⟨errs⟩ = some (combine errs) := by
  cases errs with
  | nil => exact absurd rfl h
  | cons x xs => rfl

/-! ## C1, C2: `AddOnStop` / `OnStop` -/

/-- C1: after the stop handlers `hs = h1..hN` are registered with `AddOnStop`, in that order, on a
registry with no stop handler, one call of `OnStop` returns and its events are the lock
operations followed by exactly one call of each handler, in the order `h1, ..., hN`, whatever
each of them returns (`rets`, an error or nil): an error returned by one handler does not stop
the later ones from being called. -/
theorem OnStop_calls_every_handler_in_order (env : Env F U E) (hs : List F)
    (c0 : Callbacks F) (rest : U)
    (hmu : c0.mu = RWMutex.unlocked) (hnew : c0.onStop = [])
    (hret : ∀ h ∈ hs, ∀ w : World F U, w.c.mu = RWMutex.unlocked →
      ∃ w' err, env.callStop h () w = some (w', err) ∧ w'.c.mu = RWMutex.unlocked) :
    ∃ c, hs.foldlM Callbacks.AddOnStop c0 = some c ∧
      ∃ w' err rets, rets.length = hs.length ∧
        OnStop env ⟨c, rest⟩ = some (w', err,
          Event.RLock :: Event.RUnlock ::
            List.zipWith (fun h ret => Event.call h () ret) hs rets) := by
  refine ⟨_, foldlM_AddOnStop hs c0 hmu, ?_⟩
  obtain ⟨w', rets, hlen, -, hrun⟩ :=
    rangeStop_returns env.callStop (fun w => w.c.mu = RWMutex.unlocked) hs hret ⟨[]⟩
      (⟨{ c0 with onStop := c0.onStop ++ hs }, rest⟩ : World F U) hmu
  refine ⟨w', ErrArray.ToError env.combine ⟨rets.filterMap id⟩, rets, hlen, ?_⟩
  rw [OnStop_eq env _ (by simp [hmu, RWMutex.unlocked])]
  simp only [hnew, List.nil_append] at hrun ⊢
  rw [hrun]
  rfl

/-- C2: on a registry whose lock is free and whose stop handlers return, `OnStop` calls them all
(`rets` are the values they return, in the order of the calls) and returns nil if and only if
every handler returned nil, in particular when there is no handler; otherwise it returns one
non-nil error, the combination of exactly the non-nil errors the handlers returned, in the
order of the calls. -/
theorem OnStop_returns_the_aggregate (env : Env F U E) (w : World F U)
    (hmu : w.c.mu = RWMutex.unlocked)
    (hret : ∀ h ∈ w.c.onStop, ∀ w1 : World F U, w1.c.mu = RWMutex.unlocked →
      ∃ w' err, env.callStop h () w1 = some (w', err) ∧ w'.c.mu = RWMutex.unlocked) :
    ∃ w' err rets, rets.length = w.c.onStop.length ∧
      OnStop env w = some (w', err,
        Event.RLock :: Event.RUnlock ::
          List.zipWith (fun h ret => Event.call h () ret) w.c.onStop rets) ∧
      (err = none ↔ ∀ r ∈ rets, r = none) ∧
      (w.c.onStop = [] → err = none) ∧
      ((∃ r ∈ rets, r ≠ none) → err = some (env.combine (rets.filterMap id))) := by
  obtain ⟨w', rets, hlen, -, hrun⟩ :=
    rangeStop_returns env.callStop (fun w => w.c.mu = RWMutex.unlocked) w.c.onStop hret ⟨[]⟩ w hmu
  simp only [List.nil_append] at hrun
  refine ⟨w', ErrArray.ToError env.combine ⟨rets.filterMap id⟩, rets, hlen, ?_,
    ToError_eq_none_iff env.combine rets, ?_, ?_⟩
  · rw [OnStop_eq env w (by simp [hmu, RWMutex.unlocked]), hrun]
    rfl
  · intro hnil
    rw [hnil] at hlen
    have : rets = [] := List.length_eq_zero.mp hlen
    subst this
    rfl
  · rintro ⟨r, hr, hne⟩
    apply ToError_of_ne_nil
    intro hnil
    cases r with
    | none => exact hne rfl
    | some e =>
      have : e ∈ rets.filterMap id := List.mem_filterMap.mpr ⟨some e, hr, rfl⟩
      simp [hnil] at this

/-! ## Snapshot isolation of a dispatch loop -/

theorem calls_map_call (args : A) (fs : List F) :
    calls (fs.map fun f => (Event.call f args () : Event F A Unit)) = fs := by
  induction fs with
  | nil => rfl
  | cons f fs ih =>
    simp only [calls, List.map_cons, List.filterMap_cons, Event.callee] at ih ⊢
    rw [ih]

theorem calls_locks {R : Type} (events : List (Event F A R)) :
    calls (Event.RLock :: Event.RUnlock :: events) = calls events := by
  simp [calls, Event.callee]

/-- A loop over handlers that return, leave the lock free and only append to `list` returns,
and has only appended to `list`. -/
theorem rangeCall_appends (list : Callbacks F → List F)
    (call : F → A → World F U → Option (World F U)) (args : A)
    (hwb : ∀ f w1, w1.c.mu = RWMutex.unlocked →
      ∃ w2, call f args w1 = some w2 ∧ w2.c.mu = RWMutex.unlocked ∧
        ∃ m, list w2.c = list w1.c ++ m)
    (fs : List F) (w : World F U) (hw : w.c.mu = RWMutex.unlocked) :
    ∃ w' m, rangeCall call args fs w = some (w', fs.map fun f => Event.call f args ()) ∧
      w'.c.mu = RWMutex.unlocked ∧ list w'.c = list w.c ++ m := by
  induction fs generalizing w with
  | nil => exact ⟨w, [], rfl, hw, by simp⟩
  | cons f fs ih =>
    obtain ⟨w1, h1, hmu1, m1, hl1⟩ := hwb f w hw
    obtain ⟨w2, m2, h2, hmu2, hl2⟩ := ih w1 hmu1
    exact ⟨w2, m1 ++ m2, by simp [rangeCall, h1, h2], hmu2, by rw [hl2, hl1, List.append_assoc]⟩

/-- If, in addition, a handler `h` of the loop registers `g`, then `g` is among the handlers
the loop has appended. -/
theorem rangeCall_registers (list : Callbacks F → List F)
    (call : F → A → World F U → Option (World F U)) (args : A) (h g : F)
    (hwb : ∀ f w1, w1.c.mu = RWMutex.unlocked →
      ∃ w2, call f args w1 = some w2 ∧ w2.c.mu = RWMutex.unlocked ∧
        ∃ m, list w2.c = list w1.c ++ m)
    (hreg : ∀ w1 w2, call h args w1 = some w2 → ∃ m k, list w2.c = list w1.c ++ m ++ g :: k)
    (fs : List F) (hmem : h ∈ fs) (w : World F U) (hw : w.c.mu = RWMutex.unlocked) :
    ∃ w' m k, rangeCall call args fs w = some (w', fs.map fun f => Event.call f args ()) ∧
      w'.c.mu = RWMutex.unlocked ∧ list w'.c = list w.c ++ m ++ g :: k := by
  induction fs generalizing w with
  | nil => simp at hmem
  | cons f fs ih =>
    obtain ⟨w1, h1, hmu1, m1, hl1⟩ := hwb f w hw
    rcases List.mem_cons.mp hmem with rfl | hin
    · obtain ⟨m, k, hmk⟩ := hreg w w1 h1
      obtain ⟨w2, m2, h2, hmu2, hl2⟩ := rangeCall_appends list call args hwb fs w1 hmu1
      refine ⟨w2, m, k ++ m2, by simp [rangeCall, h1, h2], hmu2, ?_⟩
      rw [hl2, hmk]
      simp
    · obtain ⟨w2, m, k, h2, hmu2, hl2⟩ := ih hin w1 hmu1
      refine ⟨w2, m1 ++ m, k, by simp [rangeCall, h1, h2], hmu2, ?_⟩
      rw [hl2, hl1]
      simp

/-- The loop over a snapshot is the calls of its handlers, in order: the world they leave and
one call event for each. -/
theorem rangeCall_eq_runInOrder (call : F → A → World F U → Option (World F U)) (args : A)
    (fs : List F) (w : World F U) :
    rangeCall call args fs w =
      (runInOrder (fun f => call f args) fs w).map fun w' =>
        (w', fs.map fun f => Event.call f args ()) := by
  induction fs generalizing w with
  | nil => rfl
  | cons f fs ih =>
    simp only [rangeCall, runInOrder, List.foldlM_cons, Option.bind_eq_bind, Option.pure_def]
    cases h1 : call f args w with
    | none => rfl
    | some w1 =>
      have ih1 := ih w1
      simp only [runInOrder] at ih1
      simp only [Option.some_bind, ih1]
      cases List.foldlM (fun w h => call h args w) w1 fs with
      | none => rfl
      | some w2 => rfl

/-- Every dispatch that takes the read lock, copies `list`, releases the lock and then loops
over the copy is snapshot-isolated. -/
theorem snapshotIsolation_of_rangeCall (list : Callbacks F → List F)
    (call : F → A → World F U → Option (World F U)) (args : A)
    (dispatch : World F U → Option (World F U × List F))
    (hd : ∀ w, dispatch w =
      if w.c.mu.writer = false then
        (rangeCall call args (list w.c) w).map fun r => (r.1, calls r.2)
      else none) :
    SnapshotIsolation list (fun f => call f args) dispatch := by
  have hrun : ∀ w, w.c.mu.writer = false →
      dispatch w = (runInOrder (fun f => call f args) (list w.c) w).map
        fun w1 => (w1, list w.c) := by
    intro w hw
    rw [hd w, if_pos hw, rangeCall_eq_runInOrder]
    cases runInOrder (fun f => call f args) (list w.c) w with
    | none => rfl
    | some w1 => simp [calls_map_call]
  have hsome : ∀ (fs : List F) (w w1 : World F U) (events : List (Event F A Unit)),
      rangeCall call args fs w = some (w1, events) →
        runInOrder (fun f => call f args) fs w = some w1 := by
    intro fs w w1 events h
    rw [rangeCall_eq_runInOrder] at h
    simp only [Option.map_eq_some', Prod.mk.injEq] at h
    obtain ⟨w2, h2, rfl, -⟩ := h
    exact h2
  refine ⟨hrun, ?_, ?_⟩
  · intro w w1 called hrun1
    rw [hd w] at hrun1
    split at hrun1
    · simp only [Option.map_eq_some', Prod.mk.injEq] at hrun1
      obtain ⟨⟨w2, events⟩, hr, -, hc⟩ := hrun1
      rw [rangeCall_events call args _ w w2 events hr, calls_map_call] at hc
      exact hc.symm
    · simp at hrun1
  · intro w h g hmu hmem hwb hreg
    obtain ⟨w1, m, k, h1, hmu1, hl1⟩ :=
      rangeCall_registers list call args h g hwb hreg (list w.c) hmem w hmu
    obtain ⟨w2, -, h2, -, -⟩ := rangeCall_appends list call args hwb (list w1.c) w1 hmu1
    have hr1 := hsome _ _ _ _ h1
    have hr2 := hsome _ _ _ _ h2
    rw [hl1] at hr2
    refine ⟨w1, w2, m, k, hr1, ?_, hl1, hr2, ?_⟩
    · rw [hrun w (by simp [hmu, RWMutex.unlocked]), hr1]
      rfl
    · rw [hrun w1 (by simp [hmu1, RWMutex.unlocked]), hl1, hr2]
      rfl

/-! ## The methods of each multi-subscriber kind, once the lock is known to be available -/

theorem AddOnTrackSubscribed_eq (c : Callbacks F) (f : F) (h : c.mu = RWMutex.unlocked) :
    c.AddOnTrackSubscribed f = some { c with onTrackSubscribed := c.onTrackSubscribed ++ [f] } := by
  obtain ⟨mu, _⟩ := c
  simp only at h
  subst h
  simp [Callbacks.AddOnTrackSubscribed, Callbacks.muLock, Callbacks.muUnlock, RWMutex.Lock,
    RWMutex.Unlock, RWMutex.unlocked]

theorem foldlM_AddOnTrackSubscribed (hs : List F) (c : Callbacks F) (h : c.mu = RWMutex.unlocked) :
    hs.foldlM Callbacks.AddOnTrackSubscribed c = some { c with onTrackSubscribed := c.onTrackSubscribed ++ hs } := by
  induction hs generalizing c with
  | nil => simp
  | cons x xs ih =>
    rw [List.foldlM_cons, AddOnTrackSubscribed_eq c x h]
    simp only [Option.bind_eq_bind, Option.some_bind]
    rw [ih { c with onTrackSubscribed := c.onTrackSubscribed ++ [x] } h]
    simp

theorem OnTrackSubscribed_eq (env : Env F U E) (track pub rp : Ptr) (w : World F U) :
    OnTrackSubscribed env track pub rp w =
      if w.c.mu.writer = false then
        (rangeCall env.callTrackSubscribed (track, pub, rp) w.c.onTrackSubscribed w).map fun r =>
          (r.1, Event.RLock :: Event.RUnlock :: r.2)
      else none := by
  obtain ⟨⟨⟨wr, rd⟩, _⟩, rest⟩ := w
  cases wr
  · simp only [OnTrackSubscribed, Callbacks.muRLock, Callbacks.muRUnlock, RWMutex.RLock, RWMutex.RUnlock,
      if_true, Option.map_some', Option.bind_eq_bind, Option.some_bind, Nat.lt_add_one,
      Nat.add_sub_cancel, Option.pure_def, Nat.zero_lt_succ]
    generalize rangeCall env.callTrackSubscribed _ _ _ = r
    cases r <;> rfl
  · simp [OnTrackSubscribed, Callbacks.muRLock, RWMutex.RLock]

theorem AddOnTrackForwardRTP_eq (c : Callbacks F) (f : F) (h : c.mu = RWMutex.unlocked) :
    c.AddOnTrackForwardRTP f = some { c with onTrackForwardRTP := c.onTrackForwardRTP ++ [f] } := by
  obtain ⟨mu, _⟩ := c
  simp only at h
  subst h
  simp [Callbacks.AddOnTrackForwardRTP, Callbacks.muLock, Callbacks.muUnlock, RWMutex.Lock,
    RWMutex.Unlock, RWMutex.unlocked]

theorem foldlM_AddOnTrackForwardRTP (hs : List F) (c : Callbacks F) (h : c.mu = RWMutex.unlocked) :
    hs.foldlM Callbacks.AddOnTrackForwardRTP c = some { c with onTrackForwardRTP := c.onTrackForwardRTP ++ hs } := by
  induction hs generalizing c with
  | nil => simp
  | cons x xs ih =>
    rw [List.foldlM_cons, AddOnTrackForwardRTP_eq c x h]
    simp only [Option.bind_eq_bind, Option.some_bind]
    rw [ih { c with onTrackForwardRTP := c.onTrackForwardRTP ++ [x] } h]
    simp

theorem OnTrackForwardRTP_eq (env : Env F U E) (track packet : Ptr) (w : World F U) :
    OnTrackForwardRTP env track packet w =
      if w.c.mu.writer = false then
        (rangeCall env.callTrackForwardRTP (track, packet) w.c.onTrackForwardRTP w).map fun r =>
          (r.1, Event.RLock :: Event.RUnlock :: r.2)
      else none := by
  obtain ⟨⟨⟨wr, rd⟩, _⟩, rest⟩ := w
  cases wr
  · simp only [OnTrackForwardRTP, Callbacks.muRLock, Callbacks.muRUnlock, RWMutex.RLock, RWMutex.RUnlock,
      if_true, Option.map_some', Option.bind_eq_bind, Option.some_bind, Nat.lt_add_one,
      Nat.add_sub_cancel, Option.pure_def, Nat.zero_lt_succ]
    generalize rangeCall env.callTrackForwardRTP _ _ _ = r
    cases r <;> rfl
  · simp [OnTrackForwardRTP, Callbacks.muRLock, RWMutex.RLock]

theorem AddOnTrackAdded_eq (c : Callbacks F) (f : F) (h : c.mu = RWMutex.unlocked) :
    c.AddOnTrackAdded f = some { c with onTrackAdded := c.onTrackAdded ++ [f] } := by
  obtain ⟨mu, _⟩ := c
  simp only at h
  subst h
  simp [Callbacks.AddOnTrackAdded, Callbacks.muLock, Callbacks.muUnlock, RWMutex.Lock,
    RWMutex.Unlock, RWMutex.unlocked]

theorem foldlM_AddOnTrackAdded (hs : List F) (c : Callbacks F) (h : c.mu = RWMutex.unlocked) :
    hs.foldlM Callbacks.AddOnTrackAdded c = some { c with onTrackAdded := c.onTrackAdded ++ hs } := by
  induction hs generalizing c with
  | nil => simp
  | cons x xs ih =>
    rw [List.foldlM_cons, AddOnTrackAdded_eq c x h]
    simp only [Option.bind_eq_bind, Option.some_bind]
    rw [ih { c with onTrackAdded := c.onTrackAdded ++ [x] } h]
    simp

theorem OnTrackAdded_eq (env : Env F U E) (ts : Ptr) (w : World F U) :
    OnTrackAdded env ts w =
      if w.c.mu.writer = false then
        (rangeCall env.callTrackAdded ts w.c.onTrackAdded w).map fun r =>
          (r.1, Event.RLock :: Event.RUnlock :: r.2)
      else none := by
  obtain ⟨⟨⟨wr, rd⟩, _⟩, rest⟩ := w
  cases wr
  · simp only [OnTrackAdded, Callbacks.muRLock, Callbacks.muRUnlock, RWMutex.RLock, RWMutex.RUnlock,
      if_true, Option.map_some', Option.bind_eq_bind, Option.some_bind, Nat.lt_add_one,
      Nat.add_sub_cancel, Option.pure_def, Nat.zero_lt_succ]
    generalize rangeCall env.callTrackAdded _ _ _ = r
    cases r <;> rfl
  · simp [OnTrackAdded, Callbacks.muRLock, RWMutex.RLock]

theorem AddOnTrackMuted_eq (c : Callbacks F) (f : F) (h : c.mu = RWMutex.unlocked) :
    c.AddOnTrackMuted f = some { c with onTrackMuted := c.onTrackMuted ++ [f] } := by
  obtain ⟨mu, _⟩ := c
  simp only at h
  subst h
  simp [Callbacks.AddOnTrackMuted, Callbacks.muLock, Callbacks.muUnlock, RWMutex.Lock,
    RWMutex.Unlock, RWMutex.unlocked]

theorem foldlM_AddOnTrackMuted (hs : List F) (c : Callbacks F) (h : c.mu = RWMutex.unlocked) :
    hs.foldlM Callbacks.AddOnTrackMuted c = some { c with onTrackMuted := c.onTrackMuted ++ hs } := by
  induction hs generalizing c with
  | nil => simp
  | cons x xs ih =>
    rw [List.foldlM_cons, AddOnTrackMuted_eq c x h]
    simp only [Option.bind_eq_bind, Option.some_bind]
    rw [ih { c with onTrackMuted := c.onTrackMuted ++ [x] } h]
    simp

theorem OnTrackMuted_eq (env : Env F U E) (trackID : GoString) (w : World F U) :
    OnTrackMuted env trackID w =
      if w.c.mu.writer = false then
        (rangeCall env.callString trackID w.c.onTrackMuted w).map fun r =>
          (r.1, Event.RLock :: Event.RUnlock :: r.2)
      else none := by
  obtain ⟨⟨⟨wr, rd⟩, _⟩, rest⟩ := w
  cases wr
  · simp only [OnTrackMuted, Callbacks.muRLock, Callbacks.muRUnlock, RWMutex.RLock, RWMutex.RUnlock,
      if_true, Option.map_some', Option.bind_eq_bind, Option.some_bind, Nat.lt_add_one,
      Nat.add_sub_cancel, Option.pure_def, Nat.zero_lt_succ]
    generalize rangeCall env.callString _ _ _ = r
    cases r <;> rfl
  · simp [OnTrackMuted, Callbacks.muRLock, RWMutex.RLock]

theorem AddOnTrackUnmuted_eq (c : Callbacks F) (f : F) (h : c.mu = RWMutex.unlocked) :
    c.AddOnTrackUnmuted f = some { c with onTrackUnmuted := c.onTrackUnmuted ++ [f] } := by
  obtain ⟨mu, _⟩ := c
  simp only at h
  subst h
  simp [Callbacks.AddOnTrackUnmuted, Callbacks.muLock, Callbacks.muUnlock, RWMutex.Lock,
    RWMutex.Unlock, RWMutex.unlocked]

theorem foldlM_AddOnTrackUnmuted (hs : List F) (c : Callbacks F) (h : c.mu = RWMutex.unlocked) :
    hs.foldlM Callbacks.AddOnTrackUnmuted c = some { c with onTrackUnmuted := c.onTrackUnmuted ++ hs } := by
  induction hs generalizing c with
  | nil => simp
  | cons x xs ih =>
    rw [List.foldlM_cons, AddOnTrackUnmuted_eq c x h]
    simp only [Option.bind_eq_bind, Option.some_bind]
    rw [ih { c with onTrackUnmuted := c.onTrackUnmuted ++ [x] } h]
    simp

theorem OnTrackUnmuted_eq (env : Env F U E) (trackID : GoString) (w : World F U) :
    OnTrackUnmuted env trackID w =
      if w.c.mu.writer = false then
        (rangeCall env.callString trackID w.c.onTrackUnmuted w).map fun r =>
          (r.1, Event.RLock :: Event.RUnlock :: r.2)
      else none := by
  obtain ⟨⟨⟨wr, rd⟩, _⟩, rest⟩ := w
  cases wr
  · simp only [OnTrackUnmuted, Callbacks.muRLock, Callbacks.muRUnlock, RWMutex.RLock, RWMutex.RUnlock,
      if_true, Option.map_some', Option.bind_eq_bind, Option.some_bind, Nat.lt_add_one,
      Nat.add_sub_cancel, Option.pure_def, Nat.zero_lt_succ]
    generalize rangeCall env.callString _ _ _ = r
    cases r <;> rfl
  · simp [OnTrackUnmuted, Callbacks.muRLock, RWMutex.RLock]

theorem AddOnTrackRemoved_eq (c : Callbacks F) (f : F) (h : c.mu = RWMutex.unlocked) :
    c.AddOnTrackRemoved f = some { c with onTrackRemoved := c.onTrackRemoved ++ [f] } := by
  obtain ⟨mu, _⟩ := c
  simp only at h
  subst h
  simp [Callbacks.AddOnTrackRemoved, Callbacks.muLock, Callbacks.muUnlock, RWMutex.Lock,
    RWMutex.Unlock, RWMutex.unlocked]

theorem foldlM_AddOnTrackRemoved (hs : List F) (c : Callbacks F) (h : c.mu = RWMutex.unlocked) :
    hs.foldlM Callbacks.AddOnTrackRemoved c = some { c with onTrackRemoved := c.onTrackRemoved ++ hs } := by
  induction hs generalizing c with
  | nil => simp
  | cons x xs ih =>
    rw [List.foldlM_cons, AddOnTrackRemoved_eq c x h]
    simp only [Option.bind_eq_bind, Option.some_bind]
    rw [ih { c with onTrackRemoved := c.onTrackRemoved ++ [x] } h]
    simp

theorem OnTrackRemoved_eq (env : Env F U E) (trackID : GoString) (w : World F U) :
    OnTrackRemoved env trackID w =
      if w.c.mu.writer = false then
        (rangeCall env.callString trackID w.c.onTrackRemoved w).map fun r =>
          (r.1, Event.RLock :: Event.RUnlock :: r.2)
      else none := by
  obtain ⟨⟨⟨wr, rd⟩, _⟩, rest⟩ := w
  cases wr
  · simp only [OnTrackRemoved, Callbacks.muRLock, Callbacks.muRUnlock, RWMutex.RLock, RWMutex.RUnlock,
      if_true, Option.map_some', Option.bind_eq_bind, Option.some_bind, Nat.lt_add_one,
      Nat.add_sub_cancel, Option.pure_def, Nat.zero_lt_succ]
    generalize rangeCall env.callString _ _ _ = r
    cases r <;> rfl
  · simp [OnTrackRemoved, Callbacks.muRLock, RWMutex.RLock]

/-! ## The single-slot kinds and `OnStop`, once the lock is known to be available -/

theorem SetOnError_eq (c : Callbacks F) (f : Option F) (h : c.mu = RWMutex.unlocked) :
    c.SetOnError f = some { c with onError := f } := by
  obtain ⟨mu, _⟩ := c
  simp only at h
  subst h
  simp [Callbacks.SetOnError, Callbacks.muLock, Callbacks.muUnlock, RWMutex.Lock,
    RWMutex.Unlock, RWMutex.unlocked]

theorem SetOnEOSSent_eq (c : Callbacks F) (f : Option F) (h : c.mu = RWMutex.unlocked) :
    c.SetOnEOSSent f = some { c with onEOSSent := f } := by
  obtain ⟨mu, _⟩ := c
  simp only at h
  subst h
  simp [Callbacks.SetOnEOSSent, Callbacks.muLock, Callbacks.muUnlock, RWMutex.Lock,
    RWMutex.Unlock, RWMutex.unlocked]

theorem foldlM_SetOnError (fs : List F) (f : F) (c : Callbacks F)
    (h : c.mu = RWMutex.unlocked) :
    (fs ++ [f]).foldlM (fun c g => c.SetOnError (some g)) c =
      some { c with onError := some f } := by
  induction fs generalizing c with
  | nil => simp [SetOnError_eq c (some f) h]
  | cons x xs ih =>
    rw [List.cons_append, List.foldlM_cons, SetOnError_eq c (some x) h]
    simp only [Option.bind_eq_bind, Option.some_bind]
    rw [ih { c with onError := some x } h]

theorem foldlM_SetOnEOSSent (fs : List F) (f : F) (c : Callbacks F)
    (h : c.mu = RWMutex.unlocked) :
    (fs ++ [f]).foldlM (fun c g => c.SetOnEOSSent (some g)) c =
      some { c with onEOSSent := some f } := by
  induction fs generalizing c with
  | nil => simp [SetOnEOSSent_eq c (some f) h]
  | cons x xs ih =>
    rw [List.cons_append, List.foldlM_cons, SetOnEOSSent_eq c (some x) h]
    simp only [Option.bind_eq_bind, Option.some_bind]
    rw [ih { c with onEOSSent := some x } h]

theorem OnError_eq (env : Env F U E) (err : Option E) (w : World F U)
    (hw : w.c.mu.writer = false) :
    OnError env err w =
      match w.c.onError with
      | some f => (env.callError f err w).map fun w' =>
          (w', [Event.RLock, Event.RUnlock, Event.call f err ()])
      | none => some (w, [Event.RLock, Event.RUnlock]) := by
  obtain ⟨⟨⟨wr, rd⟩, _, _, onError, _⟩, rest⟩ := w
  simp only at hw
  subst hw
  cases onError with
  | none =>
    simp [OnError, Callbacks.muRLock, Callbacks.muRUnlock, RWMutex.RLock, RWMutex.RUnlock]
  | some f =>
    simp only [OnError, Callbacks.muRLock, Callbacks.muRUnlock, RWMutex.RLock, RWMutex.RUnlock,
      if_true, Option.map_some', Option.bind_eq_bind, Option.some_bind, Nat.lt_add_one,
      Nat.add_sub_cancel, Option.pure_def, Nat.zero_lt_succ]
    generalize env.callError f err _ = r
    cases r <;> rfl

theorem OnEOSSent_eq (env : Env F U E) (w : World F U) (hw : w.c.mu.writer = false) :
    OnEOSSent env w =
      match w.c.onEOSSent with
      | some f => (env.callVoid f () w).map fun w' =>
          (w', [Event.RLock, Event.RUnlock, Event.call f () ()])
      | none => some (w, [Event.RLock, Event.RUnlock]) := by
  obtain ⟨⟨⟨wr, rd⟩, _, _, _, _, _, _, _, _, _, _, onEOSSent, _⟩, rest⟩ := w
  simp only at hw
  subst hw
  cases onEOSSent with
  | none =>
    simp [OnEOSSent, Callbacks.muRLock, Callbacks.muRUnlock, RWMutex.RLock, RWMutex.RUnlock]
  | some f =>
    simp only [OnEOSSent, Callbacks.muRLock, Callbacks.muRUnlock, RWMutex.RLock,
      RWMutex.RUnlock, if_true, Option.map_some', Option.bind_eq_bind, Option.some_bind,
      Nat.lt_add_one, Nat.add_sub_cancel, Option.pure_def, Nat.zero_lt_succ]
    generalize env.callVoid f () _ = r
    cases r <;> rfl

/-- The worlds and the handlers called by the loop of `OnStop` are those of the plain loop over
the same handlers. -/
theorem rangeStop_calls (call : F → Unit → World F U → Option (World F U × Option E))
    (fs : List F) (errArray : ErrArray E) (w : World F U) :
    (rangeStop call fs errArray w).map (fun r => (r.1, calls r.2.2)) =
      (rangeCall (fun f a w => (call f a w).map Prod.fst) () fs w).map
        fun r => (r.1, calls r.2) := by
  induction fs generalizing errArray w with
  | nil => rfl
  | cons f fs ih =>
    simp only [rangeStop, rangeCall, Option.bind_eq_bind, Option.pure_def]
    cases h1 : call f () w with
    | none => simp
    | some r1 =>
      obtain ⟨w1, err⟩ := r1
      have ih1 := ih (errArray.Check err) w1
      simp only [Option.some_bind, Option.map_some']
      cases h2 : rangeStop call fs (errArray.Check err) w1 with
      | none =>
        rw [h2] at ih1
        cases h3 : rangeCall (fun f a w => (call f a w).map Prod.fst) () fs w1 with
        | none => simp
        | some r3 => simp [h3] at ih1
      | some r2 =>
        rw [h2] at ih1
        cases h3 : rangeCall (fun f a w => (call f a w).map Prod.fst) () fs w1 with
        | none => simp [h3] at ih1
        | some r3 =>
          simp only [h3, Option.map_some', Option.some.injEq, Prod.mk.injEq] at ih1
          have hc := ih1.2
          simp only [calls] at hc
          simp [calls, Event.callee, ih1.1, hc]

theorem OnStop_calls_eq (env : Env F U E) (w : World F U) :
    (OnStop env w).map (fun r => (r.1, calls r.2.2)) =
      if w.c.mu.writer = false then
        (rangeCall (fun f a w => (env.callStop f a w).map Prod.fst) () w.c.onStop w).map
          fun r => (r.1, calls r.2)
      else none := by
  by_cases hw : w.c.mu.writer = false
  · rw [if_pos hw, OnStop_eq env w hw, ← rangeStop_calls env.callStop w.c.onStop ⟨[]⟩ w]
    cases rangeStop env.callStop w.c.onStop ⟨[]⟩ w with
    | none => rfl
    | some r => simp [calls_locks]
  · rw [if_neg hw]
    obtain ⟨⟨⟨wr, rd⟩, _⟩, rest⟩ := w
    simp only [Bool.not_eq_false] at hw
    subst hw
    simp [OnStop, Callbacks.muRLock, RWMutex.RLock]

/-! ## C3: fan-out in registration order -/

/-- C3: for every sequence `hs = h1..hN` of handlers, `N >= 0`, the same handler possibly several
times, registered with `AddOnTrackMuted` in that order on a registry whose lock is free and
whose list of that kind is empty, `OnTrackMuted(trackID)` is exactly the calls
`h1(trackID), ..., hN(trackID)`, in that order (`FansOut`): the program state it leaves is the
state that these calls leave, each registration called once with the unchanged `trackID`, its
events are these calls, and it returns when the handlers return; and the same for
`TrackSubscribed`, `TrackForwardRTP`, `TrackAdded`, `TrackUnmuted` and `TrackRemoved`. -/
theorem registered_handlers_called_in_order (env : Env F U E) (hs : List F)
    (c0 : Callbacks F) (rest : U) (hmu : c0.mu = RWMutex.unlocked) :
    (∀ trackID, c0.onTrackMuted = [] →
      FansOut Callbacks.AddOnTrackMuted env.callString (OnTrackMuted env trackID) trackID hs c0 rest) ∧
    (∀ track pub rp, c0.onTrackSubscribed = [] →
      FansOut Callbacks.AddOnTrackSubscribed env.callTrackSubscribed (OnTrackSubscribed env track pub rp) (track, pub, rp) hs c0 rest) ∧
    (∀ track packet, c0.onTrackForwardRTP = [] →
      FansOut Callbacks.AddOnTrackForwardRTP env.callTrackForwardRTP (OnTrackForwardRTP env track packet) (track, packet) hs c0 rest) ∧
    (∀ ts, c0.onTrackAdded = [] →
      FansOut Callbacks.AddOnTrackAdded env.callTrackAdded (OnTrackAdded env ts) ts hs c0 rest) ∧
    (∀ trackID, c0.onTrackUnmuted = [] →
      FansOut Callbacks.AddOnTrackUnmuted env.callString (OnTrackUnmuted env trackID) trackID hs c0 rest) ∧
    (∀ trackID, c0.onTrackRemoved = [] →
      FansOut Callbacks.AddOnTrackRemoved env.callString (OnTrackRemoved env trackID) trackID hs c0 rest) := by
  refine ⟨?_, ?_, ?_, ?_, ?_, ?_⟩
  · intro trackID hnew
    refine ⟨_, foldlM_AddOnTrackMuted hs c0 hmu, ?_, fun hret => ?_⟩
    · rw [OnTrackMuted_eq, if_pos (by simp [hmu, RWMutex.unlocked])]
      simp only [hnew, List.nil_append]
      rw [rangeCall_eq_runInOrder]
      cases runInOrder (fun h => env.callString h trackID) hs _ with
      | none => rfl
      | some w1 => rfl
    · obtain ⟨w', hrun, -⟩ := rangeCall_returns env.callString trackID
        (fun w => w.c.mu = RWMutex.unlocked) hs hret
        (⟨{ c0 with onTrackMuted := c0.onTrackMuted ++ hs }, rest⟩ : World F U) hmu
      refine ⟨w', ?_⟩
      rw [OnTrackMuted_eq, if_pos (by simp [hmu, RWMutex.unlocked])]
      simp only [hnew, List.nil_append] at hrun ⊢
      rw [hrun]
      rfl
  · intro track pub rp hnew
    refine ⟨_, foldlM_AddOnTrackSubscribed hs c0 hmu, ?_, fun hret => ?_⟩
    · rw [OnTrackSubscribed_eq, if_pos (by simp [hmu, RWMutex.unlocked])]
      simp only [hnew, List.nil_append]
      rw [rangeCall_eq_runInOrder]
      cases runInOrder (fun h => env.callTrackSubscribed h (track, pub, rp)) hs _ with
      | none => rfl
      | some w1 => rfl
    · obtain ⟨w', hrun, -⟩ := rangeCall_returns env.callTrackSubscribed (track, pub, rp)
        (fun w => w.c.mu = RWMutex.unlocked) hs hret
        (⟨{ c0 with onTrackSubscribed := c0.onTrackSubscribed ++ hs }, rest⟩ : World F U) hmu
      refine ⟨w', ?_⟩
      rw [OnTrackSubscribed_eq, if_pos (by simp [hmu, RWMutex.unlocked])]
      simp only [hnew, List.nil_append] at hrun ⊢
      rw [hrun]
      rfl
  · intro track packet hnew
    refine ⟨_, foldlM_AddOnTrackForwardRTP hs c0 hmu, ?_, fun hret => ?_⟩
    · rw [OnTrackForwardRTP_eq, if_pos (by simp [hmu, RWMutex.unlocked])]
      simp only [hnew, List.nil_append]
      rw [rangeCall_eq_runInOrder]
      cases runInOrder (fun h => env.callTrackForwardRTP h (track, packet)) hs _ with
      | none => rfl
      | some w1 => rfl
    · obtain ⟨w', hrun, -⟩ := rangeCall_returns env.callTrackForwardRTP (track, packet)
        (fun w => w.c.mu = RWMutex.unlocked) hs hret
        (⟨{ c0 with onTrackForwardRTP := c0.onTrackForwardRTP ++ hs }, rest⟩ : World F U) hmu
      refine ⟨w', ?_⟩
      rw [OnTrackForwardRTP_eq, if_pos (by simp [hmu, RWMutex.unlocked])]
      simp only [hnew, List.nil_append] at hrun ⊢
      rw [hrun]
      rfl
  · intro ts hnew
    refine ⟨_, foldlM_AddOnTrackAdded hs c0 hmu, ?_, fun hret => ?_⟩
    · rw [OnTrackAdded_eq, if_pos (by simp [hmu, RWMutex.unlocked])]
      simp only [hnew, List.nil_append]
      rw [rangeCall_eq_runInOrder]
      cases runInOrder (fun h => env.callTrackAdded h ts) hs _ with
      | none => rfl
      | some w1 => rfl
    · obtain ⟨w', hrun, -⟩ := rangeCall_returns env.callTrackAdded ts
        (fun w => w.c.mu = RWMutex.unlocked) hs hret
        (⟨{ c0 with onTrackAdded := c0.onTrackAdded ++ hs }, rest⟩ : World F U) hmu
      refine ⟨w', ?_⟩
      rw [OnTrackAdded_eq, if_pos (by simp [hmu, RWMutex.unlocked])]
      simp only [hnew, List.nil_append] at hrun ⊢
      rw [hrun]
      rfl
  · intro trackID hnew
    refine ⟨_, foldlM_AddOnTrackUnmuted hs c0 hmu, ?_, fun hret => ?_⟩
    · rw [OnTrackUnmuted_eq, if_pos (by simp [hmu, RWMutex.unlocked])]
      simp only [hnew, List.nil_append]
      rw [rangeCall_eq_runInOrder]
      cases runInOrder (fun h => env.callString h trackID) hs _ with
      | none => rfl
      | some w1 => rfl
    · obtain ⟨w', hrun, -⟩ := rangeCall_returns env.callString trackID
        (fun w => w.c.mu = RWMutex.unlocked) hs hret
        (⟨{ c0 with onTrackUnmuted := c0.onTrackUnmuted ++ hs }, rest⟩ : World F U) hmu
      refine ⟨w', ?_⟩
      rw [OnTrackUnmuted_eq, if_pos (by simp [hmu, RWMutex.unlocked])]
      simp only [hnew, List.nil_append] at hrun ⊢
      rw [hrun]
      rfl
  · intro trackID hnew
    refine ⟨_, foldlM_AddOnTrackRemoved hs c0 hmu, ?_, fun hret => ?_⟩
    · rw [OnTrackRemoved_eq, if_pos (by simp [hmu, RWMutex.unlocked])]
      simp only [hnew, List.nil_append]
      rw [rangeCall_eq_runInOrder]
      cases runInOrder (fun h => env.callString h trackID) hs _ with
      | none => rfl
      | some w1 => rfl
    · obtain ⟨w', hrun, -⟩ := rangeCall_returns env.callString trackID
        (fun w => w.c.mu = RWMutex.unlocked) hs hret
        (⟨{ c0 with onTrackRemoved := c0.onTrackRemoved ++ hs }, rest⟩ : World F U) hmu
      refine ⟨w', ?_⟩
      rw [OnTrackRemoved_eq, if_pos (by simp [hmu, RWMutex.unlocked])]
      simp only [hnew, List.nil_append] at hrun ⊢
      rw [hrun]
      rfl

/-! ## C4: snapshot isolation under re-entrant registration -/

/-- C4: every multi-subscriber dispatch (`OnStop`, `OnTrackSubscribed`, `OnTrackForwardRTP`,
`OnTrackAdded`, `OnTrackMuted`, `OnTrackUnmuted`, `OnTrackRemoved`) is snapshot-isolated
(`SnapshotIsolation`): whatever the handlers do to the registry, the call is exactly the calls
of the handlers registered when it started (it leaves the program state that those calls
leave, so a handler `g` registered during the call has not run in it); and such a `g` is in the
list afterwards, behind all handlers registered before, and the next call runs them and then
`g`. -/
theorem dispatch_snapshot_isolation (env : Env F U E) :
    SnapshotIsolation Callbacks.onStop (fun f w => (env.callStop f () w).map Prod.fst)
      (fun w => (OnStop env w).map fun r => (r.1, calls r.2.2)) ∧
    (∀ track pub rp, SnapshotIsolation Callbacks.onTrackSubscribed (fun f => env.callTrackSubscribed f (track, pub, rp))
      (fun w => (OnTrackSubscribed env track pub rp w).map fun r => (r.1, calls r.2))) ∧
    (∀ track packet, SnapshotIsolation Callbacks.onTrackForwardRTP (fun f => env.callTrackForwardRTP f (track, packet))
      (fun w => (OnTrackForwardRTP env track packet w).map fun r => (r.1, calls r.2))) ∧
    (∀ ts, SnapshotIsolation Callbacks.onTrackAdded (fun f => env.callTrackAdded f ts)
      (fun w => (OnTrackAdded env ts w).map fun r => (r.1, calls r.2))) ∧
    (∀ trackID, SnapshotIsolation Callbacks.onTrackMuted (fun f => env.callString f trackID)
      (fun w => (OnTrackMuted env trackID w).map fun r => (r.1, calls r.2))) ∧
    (∀ trackID, SnapshotIsolation Callbacks.onTrackUnmuted (fun f => env.callString f trackID)
      (fun w => (OnTrackUnmuted env trackID w).map fun r => (r.1, calls r.2))) ∧
    (∀ trackID, SnapshotIsolation Callbacks.onTrackRemoved (fun f => env.callString f trackID)
      (fun w => (OnTrackRemoved env trackID w).map fun r => (r.1, calls r.2))) := by
  refine ⟨?_, ?_, ?_, ?_, ?_, ?_, ?_⟩
  · exact snapshotIsolation_of_rangeCall Callbacks.onStop
      (fun f a w => (env.callStop f a w).map Prod.fst) () _ (OnStop_calls_eq env)
  · intro track pub rp
    apply snapshotIsolation_of_rangeCall Callbacks.onTrackSubscribed env.callTrackSubscribed (track, pub, rp)
    intro w
    rw [OnTrackSubscribed_eq]
    split
    · cases rangeCall env.callTrackSubscribed (track, pub, rp) w.c.onTrackSubscribed w with
      | none => rfl
      | some r => simp [calls_locks]
    · rfl
  · intro track packet
    apply snapshotIsolation_of_rangeCall Callbacks.onTrackForwardRTP env.callTrackForwardRTP (track, packet)
    intro w
    rw [OnTrackForwardRTP_eq]
    split
    · cases rangeCall env.callTrackForwardRTP (track, packet) w.c.onTrackForwardRTP w with
      | none => rfl
      | some r => simp [calls_locks]
    · rfl
  · intro ts
    apply snapshotIsolation_of_rangeCall Callbacks.onTrackAdded env.callTrackAdded ts
    intro w
    rw [OnTrackAdded_eq]
    split
    · cases rangeCall env.callTrackAdded ts w.c.onTrackAdded w with
      | none => rfl
      | some r => simp [calls_locks]
    · rfl
  · intro trackID
    apply snapshotIsolation_of_rangeCall Callbacks.onTrackMuted env.callString trackID
    intro w
    rw [OnTrackMuted_eq]
    split
    · cases rangeCall env.callString trackID w.c.onTrackMuted w with
      | none => rfl
      | some r => simp [calls_locks]
    · rfl
  · intro trackID
    apply snapshotIsolation_of_rangeCall Callbacks.onTrackUnmuted env.callString trackID
    intro w
    rw [OnTrackUnmuted_eq]
    split
    · cases rangeCall env.callString trackID w.c.onTrackUnmuted w with
      | none => rfl
      | some r => simp [calls_locks]
    · rfl
  · intro trackID
    apply snapshotIsolation_of_rangeCall Callbacks.onTrackRemoved env.callString trackID
    intro w
    rw [OnTrackRemoved_eq]
    split
    · cases rangeCall env.callString trackID w.c.onTrackRemoved w with
      | none => rfl
      | some r => simp [calls_locks]
    · rfl

/-! ## C5, C6: the single-slot kinds -/

/-- C5: after `SetOnError` has been called with the handlers `f1, ..., fk` (here `fs` followed
by `f = fk`), in that order, `OnError(err)` is exactly one call of `fk` with `err`: it returns
when that call does, and its events are the lock operations and the single call `fk(err)`, so
none of `f1..f(k-1)` is called.  The same holds for `SetOnEOSSent` and `OnEOSSent`. -/
theorem last_set_handler_is_the_only_one_called (env : Env F U E) (fs : List F) (f : F)
    (c0 : Callbacks F) (rest : U) (hmu : c0.mu = RWMutex.unlocked) :
    (∃ c, (fs ++ [f]).foldlM (fun c g => c.SetOnError (some g)) c0 = some c ∧
      ∀ err, OnError env err ⟨c, rest⟩ =
        (env.callError f err ⟨c, rest⟩).map fun w' =>
          (w', [Event.RLock, Event.RUnlock, Event.call f err ()])) ∧
    (∃ c, (fs ++ [f]).foldlM (fun c g => c.SetOnEOSSent (some g)) c0 = some c ∧
      OnEOSSent env ⟨c, rest⟩ =
        (env.callVoid f () ⟨c, rest⟩).map fun w' =>
          (w', [Event.RLock, Event.RUnlock, Event.call f () ()])) := by
  constructor
  · refine ⟨_, foldlM_SetOnError fs f c0 hmu, fun err => ?_⟩
    rw [OnError_eq env err _ (by simp [hmu, RWMutex.unlocked])]
  · refine ⟨_, foldlM_SetOnEOSSent fs f c0 hmu, ?_⟩
    rw [OnEOSSent_eq env _ (by simp [hmu, RWMutex.unlocked])]

/-- C6: when no writer holds the lock and the error slot is nil, `OnError(err)` returns, calls no
handler (its only events are the lock operations) and leaves the whole program state, every
field of the registry included, as it was; the same for `OnEOSSent` and the EOS slot.  That is
the case of the zero-value registry, and of any registry after `SetOnError(nil)`, respectively
`SetOnEOSSent(nil)`. -/
theorem unset_slot_is_a_no_op (env : Env F U E) (err : Option E) (w : World F U)
    (hmu : w.c.mu.writer = false) :
    (w.c.onError = none → OnError env err w = some (w, [Event.RLock, Event.RUnlock])) ∧
    (w.c.onEOSSent = none → OnEOSSent env w = some (w, [Event.RLock, Event.RUnlock])) ∧
    (w.c.mu = RWMutex.unlocked → ∃ c, w.c.SetOnError none = some c ∧
      OnError env err ⟨c, w.rest⟩ = some (⟨c, w.rest⟩, [Event.RLock, Event.RUnlock])) ∧
    (w.c.mu = RWMutex.unlocked → ∃ c, w.c.SetOnEOSSent none = some c ∧
      OnEOSSent env ⟨c, w.rest⟩ = some (⟨c, w.rest⟩, [Event.RLock, Event.RUnlock])) := by
  refine ⟨?_, ?_, ?_, ?_⟩
  · intro h
    rw [OnError_eq env err w hmu, h]
  · intro h
    rw [OnEOSSent_eq env w hmu, h]
  · intro h
    refine ⟨_, SetOnError_eq w.c none h, ?_⟩
    rw [OnError_eq env err _ (by simp [hmu])]
  · intro h
    refine ⟨_, SetOnEOSSent_eq w.c none h, ?_⟩
    rw [OnEOSSent_eq env _ (by simp [hmu])]

/-! ## The example program -/

theorem exampleEnv_callStop_returns (hs : List Nat) (h1 : 1 ∉ hs) :
    ∀ h ∈ hs, ∀ w : World Nat (List Nat), w.c.mu = RWMutex.unlocked →
      ∃ w' err, exampleEnv.callStop h () w = some (w', err) ∧ w'.c.mu = RWMutex.unlocked := by
  intro h hh w hw
  have hne : h ≠ 1 := fun e => h1 (e ▸ hh)
  exact ⟨record h w, if h = 2 then some 7 else none, by simp [exampleEnv, hne], hw⟩

theorem exampleEnv_callString_returns (trackID : GoString) (hs : List Nat)
    (h1 : 1 ∉ hs) (h2 : 2 ∉ hs) (h3 : 3 ∉ hs) :
    Returns exampleEnv.callString trackID hs := by
  intro h hh w hw
  have hne1 : h ≠ 1 := fun e => h1 (e ▸ hh)
  have hne2 : h ≠ 2 := fun e => h2 (e ▸ hh)
  have hne3 : h ≠ 3 := fun e => h3 (e ▸ hh)
  exact ⟨record h w, by simp [exampleEnv, hne1, hne2, hne3], hw⟩

theorem exampleEnv_callTrackSubscribed_returns (args : Ptr × Ptr × Ptr) (hs : List Nat)
    (h1 : 1 ∉ hs) : Returns exampleEnv.callTrackSubscribed args hs := by
  intro h hh w hw
  have hne : h ≠ 1 := fun e => h1 (e ▸ hh)
  exact ⟨record h w, by simp [exampleEnv, hne], hw⟩

theorem exampleEnv_callTrackForwardRTP_returns (args : Ptr × Ptr) (hs : List Nat)
    (h1 : 1 ∉ hs) : Returns exampleEnv.callTrackForwardRTP args hs := by
  intro h hh w hw
  have hne : h ≠ 1 := fun e => h1 (e ▸ hh)
  exact ⟨record h w, by simp [exampleEnv, hne], hw⟩

theorem exampleEnv_callTrackAdded_returns (ts : Ptr) (hs : List Nat)
    (h1 : 1 ∉ hs) : Returns exampleEnv.callTrackAdded ts hs := by
  intro h hh w hw
  have hne : h ≠ 1 := fun e => h1 (e ▸ hh)
  exact ⟨record h w, by simp [exampleEnv, hne], hw⟩

/-- Witness of C1: the stop handlers 3, 2, 4 of the example program, of which 2 returns an
error; all three are called, 4 after the failing 2. -/
theorem OnStop_calls_every_handler_in_order_witness :
    (Callbacks.zero : Callbacks Nat).mu = RWMutex.unlocked ∧
    (Callbacks.zero : Callbacks Nat).onStop = [] ∧
    (∃ c, [3, 2, 4].foldlM Callbacks.AddOnStop (Callbacks.zero : Callbacks Nat) = some c ∧
      ∃ w' err rets, rets.length = [3, 2, 4].length ∧
        OnStop exampleEnv ⟨c, []⟩ = some (w', err,
          Event.RLock :: Event.RUnlock ::
            List.zipWith (fun h ret => Event.call h () ret) [3, 2, 4] rets)) ∧
    OnStop exampleEnv ⟨{ (Callbacks.zero : Callbacks Nat) with onStop := [3, 2, 4] }, []⟩ =
      some (⟨{ (Callbacks.zero : Callbacks Nat) with onStop := [3, 2, 4] }, [3, 2, 4]⟩, some 7,
        [Event.RLock, Event.RUnlock, Event.call 3 () none, Event.call 2 () (some 7),
          Event.call 4 () none]) :=
  ⟨rfl, rfl,
    OnStop_calls_every_handler_in_order exampleEnv [3, 2, 4] Callbacks.zero [] rfl rfl
      (exampleEnv_callStop_returns [3, 2, 4] (by decide)),
    by decide⟩

/-- Witness of C2: three stop handlers of which only the second returns an error (`7`): the
result is the non-nil combination of `[7]`; with no handler it is nil. -/
theorem OnStop_returns_the_aggregate_witness :
    (∃ w' err rets, rets.length = 3 ∧
      OnStop exampleEnv ⟨{ (Callbacks.zero : Callbacks Nat) with onStop := [3, 2, 4] }, []⟩ =
        some (w', err, Event.RLock :: Event.RUnlock ::
          List.zipWith (fun h ret => Event.call h () ret) [3, 2, 4] rets) ∧
      (err = none ↔ ∀ r ∈ rets, r = none) ∧
      (([3, 2, 4] : List Nat) = [] → err = none) ∧
      ((∃ r ∈ rets, r ≠ none) → err = some (exampleEnv.combine (rets.filterMap id)))) ∧
    (OnStop exampleEnv ⟨{ (Callbacks.zero : Callbacks Nat) with onStop := [3, 2, 4] }, []⟩).map
      (fun r => r.2.1) = some (some (exampleEnv.combine [7])) ∧
    (OnStop exampleEnv ⟨(Callbacks.zero : Callbacks Nat), []⟩).map (fun r => r.2.1) =
      some none :=
  ⟨OnStop_returns_the_aggregate exampleEnv
      ⟨{ (Callbacks.zero : Callbacks Nat) with onStop := [3, 2, 4] }, []⟩ rfl
      (exampleEnv_callStop_returns [3, 2, 4] (by decide)),
    by decide, by decide⟩

/-- Witness of C3: the handlers 4, 5, 4 (handler 4 registered twice) for each kind: the
dispatch leaves the record of the handlers that ran, `4, 5, 4`, and its events are these three
calls. -/
theorem registered_handlers_called_in_order_witness :
    (Callbacks.zero : Callbacks Nat).mu = RWMutex.unlocked ∧
    FansOut Callbacks.AddOnTrackMuted exampleEnv.callString (OnTrackMuted exampleEnv (str "TR_a")) (str "TR_a")
      [4, 5, 4] Callbacks.zero [] ∧
    FansOut Callbacks.AddOnTrackSubscribed exampleEnv.callTrackSubscribed (OnTrackSubscribed exampleEnv 11 12 13) (11, 12, 13)
      [4, 5, 4] Callbacks.zero [] ∧
    FansOut Callbacks.AddOnTrackForwardRTP exampleEnv.callTrackForwardRTP (OnTrackForwardRTP exampleEnv 11 14) (11, 14)
      [4, 5, 4] Callbacks.zero [] ∧
    FansOut Callbacks.AddOnTrackAdded exampleEnv.callTrackAdded (OnTrackAdded exampleEnv 15) 15
      [4, 5, 4] Callbacks.zero [] ∧
    FansOut Callbacks.AddOnTrackUnmuted exampleEnv.callString (OnTrackUnmuted exampleEnv (str "TR_a")) (str "TR_a")
      [4, 5, 4] Callbacks.zero [] ∧
    FansOut Callbacks.AddOnTrackRemoved exampleEnv.callString (OnTrackRemoved exampleEnv (str "TR_a")) (str "TR_a")
      [4, 5, 4] Callbacks.zero [] ∧
    OnTrackMuted exampleEnv (str "TR_a")
        ⟨{ (Callbacks.zero : Callbacks Nat) with onTrackMuted := [4, 5, 4] }, []⟩ =
      some (⟨{ (Callbacks.zero : Callbacks Nat) with onTrackMuted := [4, 5, 4] }, [4, 5, 4]⟩,
        [Event.RLock, Event.RUnlock, Event.call 4 (str "TR_a") (),
          Event.call 5 (str "TR_a") (), Event.call 4 (str "TR_a") ()]) ∧
    OnTrackSubscribed exampleEnv 11 12 13
        ⟨{ (Callbacks.zero : Callbacks Nat) with onTrackSubscribed := [4, 5, 4] }, []⟩ =
      some (⟨{ (Callbacks.zero : Callbacks Nat) with onTrackSubscribed := [4, 5, 4] }, [4, 5, 4]⟩,
        [Event.RLock, Event.RUnlock, Event.call 4 (11, 12, 13) (),
          Event.call 5 (11, 12, 13) (), Event.call 4 (11, 12, 13) ()]) ∧
    OnTrackForwardRTP exampleEnv 11 14
        ⟨{ (Callbacks.zero : Callbacks Nat) with onTrackForwardRTP := [4, 5, 4] }, []⟩ =
      some (⟨{ (Callbacks.zero : Callbacks Nat) with onTrackForwardRTP := [4, 5, 4] }, [4, 5, 4]⟩,
        [Event.RLock, Event.RUnlock, Event.call 4 (11, 14) (),
          Event.call 5 (11, 14) (), Event.call 4 (11, 14) ()]) ∧
    OnTrackAdded exampleEnv 15
        ⟨{ (Callbacks.zero : Callbacks Nat) with onTrackAdded := [4, 5, 4] }, []⟩ =
      some (⟨{ (Callbacks.zero : Callbacks Nat) with onTrackAdded := [4, 5, 4] }, [4, 5, 4]⟩,
        [Event.RLock, Event.RUnlock, Event.call 4 15 (),
          Event.call 5 15 (), Event.call 4 15 ()]) ∧
    OnTrackUnmuted exampleEnv (str "TR_a")
        ⟨{ (Callbacks.zero : Callbacks Nat) with onTrackUnmuted := [4, 5, 4] }, []⟩ =
      some (⟨{ (Callbacks.zero : Callbacks Nat) with onTrackUnmuted := [4, 5, 4] }, [4, 5, 4]⟩,
        [Event.RLock, Event.RUnlock, Event.call 4 (str "TR_a") (),
          Event.call 5 (str "TR_a") (), Event.call 4 (str "TR_a") ()]) ∧
    OnTrackRemoved exampleEnv (str "TR_a")
        ⟨{ (Callbacks.zero : Callbacks Nat) with onTrackRemoved := [4, 5, 4] }, []⟩ =
      some (⟨{ (Callbacks.zero : Callbacks Nat) with onTrackRemoved := [4, 5, 4] }, [4, 5, 4]⟩,
        [Event.RLock, Event.RUnlock, Event.call 4 (str "TR_a") (),
          Event.call 5 (str "TR_a") (), Event.call 4 (str "TR_a") ()]) :=
  ⟨rfl,
    (registered_handlers_called_in_order exampleEnv [4, 5, 4] Callbacks.zero [] rfl).1
      (str "TR_a") rfl,
    (registered_handlers_called_in_order exampleEnv [4, 5, 4] Callbacks.zero [] rfl).2.1
      11 12 13 rfl,
    (registered_handlers_called_in_order exampleEnv [4, 5, 4] Callbacks.zero [] rfl).2.2.1
      11 14 rfl,
    (registered_handlers_called_in_order exampleEnv [4, 5, 4] Callbacks.zero [] rfl).2.2.2.1
      15 rfl,
    (registered_handlers_called_in_order exampleEnv [4, 5, 4] Callbacks.zero [] rfl).2.2.2.2.1
      (str "TR_a") rfl,
    (registered_handlers_called_in_order exampleEnv [4, 5, 4] Callbacks.zero [] rfl).2.2.2.2.2
      (str "TR_a") rfl,
    rfl, by decide, rfl, by decide, rfl, by decide⟩

/-- In the example program every `func(string)` returns, leaves the lock free and only appends
to the list of muted-handlers. -/
theorem exampleEnv_callString_appends (trackID : GoString) :
    ∀ (f : Nat) (w1 : World Nat (List Nat)), w1.c.mu = RWMutex.unlocked →
      ∃ w2, exampleEnv.callString f trackID w1 = some w2 ∧ w2.c.mu = RWMutex.unlocked ∧
        ∃ m, w2.c.onTrackMuted = w1.c.onTrackMuted ++ m := by
  intro f w1 hw
  by_cases h1 : f = 1
  · subst h1
    refine ⟨⟨{ w1.c with onTrackMuted := w1.c.onTrackMuted ++ [9] }, w1.rest ++ [1]⟩, ?_, hw,
      [9], rfl⟩
    simp [exampleEnv, World.onRegistry, AddOnTrackMuted_eq w1.c 9 hw, record]
  by_cases h2 : f = 2
  · subst h2
    refine ⟨⟨{ w1.c with onTrackUnmuted := w1.c.onTrackUnmuted ++ [9] }, w1.rest ++ [2]⟩, ?_,
      hw, [], by simp⟩
    simp [exampleEnv, World.onRegistry, AddOnTrackUnmuted_eq w1.c 9 hw, record]
  by_cases h3 : f = 3
  · subst h3
    refine ⟨⟨{ w1.c with onTrackRemoved := w1.c.onTrackRemoved ++ [9] }, w1.rest ++ [3]⟩, ?_,
      hw, [], by simp⟩
    simp [exampleEnv, World.onRegistry, AddOnTrackRemoved_eq w1.c 9 hw, record]
  exact ⟨record f w1, by simp [exampleEnv, h1, h2, h3], hw, [], by simp [record]⟩

/-- In the example program the `func(string)` handler 1 registers handler 9 with
`AddOnTrackMuted`. -/
theorem exampleEnv_callString_registers (trackID : GoString) :
    ∀ w1 w2 : World Nat (List Nat), exampleEnv.callString 1 trackID w1 = some w2 →
      ∃ m k, w2.c.onTrackMuted = w1.c.onTrackMuted ++ m ++ 9 :: k := by
  intro w1 w2 h
  refine ⟨[], [], ?_⟩
  simp only [exampleEnv, if_true, World.onRegistry, Callbacks.AddOnTrackMuted,
    Option.map_eq_some', Option.bind_eq_bind, Option.bind_eq_some] at h
  obtain ⟨c, ⟨c1, hc1, hc2⟩, rfl⟩ := h
  simp only [Callbacks.muLock, Option.map_eq_some'] at hc1
  obtain ⟨m1, -, rfl⟩ := hc1
  simp only [Callbacks.muUnlock, Option.map_eq_some'] at hc2
  obtain ⟨m2, -, rfl⟩ := hc2
  simp [record]

/-- Witness of C4: in the example program the muted-handler 1 calls `AddOnTrackMuted(9)`.
The first `OnTrackMuted` on the handlers 1, 4 runs 1 and 4 only (the record of the handlers
that ran is `1, 4`, although 9 is in the list afterwards); the next one runs 1, 4 and then 9.
The same closed runs for the other six kinds, with the handler of that kind that registers 9. -/
theorem dispatch_snapshot_isolation_witness :
    (∃ w1 w2 m k,
      runInOrder (fun f => exampleEnv.callString f (str "TR_a")) [1, 4]
          ⟨{ (Callbacks.zero : Callbacks Nat) with onTrackMuted := [1, 4] }, []⟩ = some w1 ∧
      (OnTrackMuted exampleEnv (str "TR_a")
          ⟨{ (Callbacks.zero : Callbacks Nat) with onTrackMuted := [1, 4] }, []⟩).map
        (fun r => (r.1, calls r.2)) = some (w1, [1, 4]) ∧
      w1.c.onTrackMuted = [1, 4] ++ m ++ 9 :: k ∧
      runInOrder (fun f => exampleEnv.callString f (str "TR_a")) ([1, 4] ++ m ++ 9 :: k) w1 =
        some w2 ∧
      (OnTrackMuted exampleEnv (str "TR_a") w1).map (fun r => (r.1, calls r.2)) =
        some (w2, [1, 4] ++ m ++ 9 :: k)) ∧
    (OnStop exampleEnv
        ⟨{ (Callbacks.zero : Callbacks Nat) with onStop := [1, 4] }, []⟩).map
      (fun r => (r.1.c.onStop, r.1.rest, calls r.2.2)) = some ([1, 4, 9], [1, 4], [1, 4]) ∧
    (OnStop exampleEnv
        ⟨{ (Callbacks.zero : Callbacks Nat) with onStop := [1, 4, 9] }, [1, 4]⟩).map
      (fun r => (r.1.c.onStop, r.1.rest, calls r.2.2)) =
      some ([1, 4, 9, 9], [1, 4, 1, 4, 9], [1, 4, 9]) ∧
    (OnTrackSubscribed exampleEnv 11 12 13
        ⟨{ (Callbacks.zero : Callbacks Nat) with onTrackSubscribed := [1, 4] }, []⟩).map
      (fun r => (r.1.c.onTrackSubscribed, r.1.rest, calls r.2)) = some ([1, 4, 9], [1, 4], [1, 4]) ∧
    (OnTrackSubscribed exampleEnv 11 12 13
        ⟨{ (Callbacks.zero : Callbacks Nat) with onTrackSubscribed := [1, 4, 9] }, [1, 4]⟩).map
      (fun r => (r.1.c.onTrackSubscribed, r.1.rest, calls r.2)) =
      some ([1, 4, 9, 9], [1, 4, 1, 4, 9], [1, 4, 9]) ∧
    (OnTrackForwardRTP exampleEnv 11 14
        ⟨{ (Callbacks.zero : Callbacks Nat) with onTrackForwardRTP := [1, 4] }, []⟩).map
      (fun r => (r.1.c.onTrackForwardRTP, r.1.rest, calls r.2)) = some ([1, 4, 9], [1, 4], [1, 4]) ∧
    (OnTrackForwardRTP exampleEnv 11 14
        ⟨{ (Callbacks.zero : Callbacks Nat) with onTrackForwardRTP := [1, 4, 9] }, [1, 4]⟩).map
      (fun r => (r.1.c.onTrackForwardRTP, r.1.rest, calls r.2)) =
      some ([1, 4, 9, 9], [1, 4, 1, 4, 9], [1, 4, 9]) ∧
    (OnTrackAdded exampleEnv 15
        ⟨{ (Callbacks.zero : Callbacks Nat) with onTrackAdded := [1, 4] }, []⟩).map
      (fun r => (r.1.c.onTrackAdded, r.1.rest, calls r.2)) = some ([1, 4, 9], [1, 4], [1, 4]) ∧
    (OnTrackAdded exampleEnv 15
        ⟨{ (Callbacks.zero : Callbacks Nat) with onTrackAdded := [1, 4, 9] }, [1, 4]⟩).map
      (fun r => (r.1.c.onTrackAdded, r.1.rest, calls r.2)) =
      some ([1, 4, 9, 9], [1, 4, 1, 4, 9], [1, 4, 9]) ∧
    (OnTrackMuted exampleEnv (str "TR_a")
        ⟨{ (Callbacks.zero : Callbacks Nat) with onTrackMuted := [1, 4] }, []⟩).map
      (fun r => (r.1.c.onTrackMuted, r.1.rest, calls r.2)) = some ([1, 4, 9], [1, 4], [1, 4]) ∧
    (OnTrackMuted exampleEnv (str "TR_a")
        ⟨{ (Callbacks.zero : Callbacks Nat) with onTrackMuted := [1, 4, 9] }, [1, 4]⟩).map
      (fun r => (r.1.c.onTrackMuted, r.1.rest, calls r.2)) =
      some ([1, 4, 9, 9], [1, 4, 1, 4, 9], [1, 4, 9]) ∧
    (OnTrackUnmuted exampleEnv (str "TR_a")
        ⟨{ (Callbacks.zero : Callbacks Nat) with onTrackUnmuted := [2, 4] }, []⟩).map
      (fun r => (r.1.c.onTrackUnmuted, r.1.rest, calls r.2)) = some ([2, 4, 9], [2, 4], [2, 4]) ∧
    (OnTrackUnmuted exampleEnv (str "TR_a")
        ⟨{ (Callbacks.zero : Callbacks Nat) with onTrackUnmuted := [2, 4, 9] }, [2, 4]⟩).map
      (fun r => (r.1.c.onTrackUnmuted, r.1.rest, calls r.2)) =
      some ([2, 4, 9, 9], [2, 4, 2, 4, 9], [2, 4, 9]) ∧
    (OnTrackRemoved exampleEnv (str "TR_a")
        ⟨{ (Callbacks.zero : Callbacks Nat) with onTrackRemoved := [3, 4] }, []⟩).map
      (fun r => (r.1.c.onTrackRemoved, r.1.rest, calls r.2)) = some ([3, 4, 9], [3, 4], [3, 4]) ∧
    (OnTrackRemoved exampleEnv (str "TR_a")
        ⟨{ (Callbacks.zero : Callbacks Nat) with onTrackRemoved := [3, 4, 9] }, [3, 4]⟩).map
      (fun r => (r.1.c.onTrackRemoved, r.1.rest, calls r.2)) =
      some ([3, 4, 9, 9], [3, 4, 3, 4, 9], [3, 4, 9]) :=
  ⟨((dispatch_snapshot_isolation exampleEnv).2.2.2.2.1 (str "TR_a")).2.2
      ⟨{ (Callbacks.zero : Callbacks Nat) with onTrackMuted := [1, 4] }, []⟩ 1 9 rfl
      (by decide) (exampleEnv_callString_appends (str "TR_a"))
      (exampleEnv_callString_registers (str "TR_a")),
    rfl, by decide, rfl, by decide, rfl, by decide, rfl, by decide,
    rfl, by decide, rfl, by decide, rfl, by decide⟩

/-- Witness of C5: `SetOnError(4)`, `SetOnError(5)`, then `OnError`: only handler 5 runs. -/
theorem last_set_handler_is_the_only_one_called_witness :
    (Callbacks.zero : Callbacks Nat).mu = RWMutex.unlocked ∧
    ((∃ c, ([4] ++ [5]).foldlM (fun c g => c.SetOnError (some g))
          (Callbacks.zero : Callbacks Nat) = some c ∧
        ∀ err, OnError exampleEnv err ⟨c, []⟩ =
          (exampleEnv.callError 5 err ⟨c, []⟩).map fun w' =>
            (w', [Event.RLock, Event.RUnlock, Event.call 5 err ()])) ∧
      (∃ c, ([4] ++ [5]).foldlM (fun c g => c.SetOnEOSSent (some g))
          (Callbacks.zero : Callbacks Nat) = some c ∧
        OnEOSSent exampleEnv ⟨c, []⟩ =
          (exampleEnv.callVoid 5 () ⟨c, []⟩).map fun w' =>
            (w', [Event.RLock, Event.RUnlock, Event.call 5 () ()]))) ∧
    (((Callbacks.zero : Callbacks Nat).SetOnError (some 4)).bind fun c =>
      (c.SetOnError (some 5)).bind fun c => OnError exampleEnv (some 8) ⟨c, []⟩) =
      some (⟨{ (Callbacks.zero : Callbacks Nat) with onError := some 5 }, [5]⟩,
        [Event.RLock, Event.RUnlock, Event.call 5 (some 8) ()]) :=
  ⟨rfl, last_set_handler_is_the_only_one_called exampleEnv [4] 5 Callbacks.zero [] rfl,
    by decide⟩

/-- Witness of C6: `OnError` and `OnEOSSent` on the zero-value registry. -/
theorem unset_slot_is_a_no_op_witness :
    (Callbacks.zero : Callbacks Nat).mu.writer = false ∧
    (((Callbacks.zero : Callbacks Nat).onError = none →
        OnError exampleEnv (some 8) ⟨Callbacks.zero, []⟩ =
          some (⟨Callbacks.zero, []⟩, [Event.RLock, Event.RUnlock])) ∧
      ((Callbacks.zero : Callbacks Nat).onEOSSent = none →
        OnEOSSent exampleEnv ⟨Callbacks.zero, []⟩ =
          some (⟨Callbacks.zero, []⟩, [Event.RLock, Event.RUnlock])) ∧
      ((Callbacks.zero : Callbacks Nat).mu = RWMutex.unlocked →
        ∃ c, (Callbacks.zero : Callbacks Nat).SetOnError none = some c ∧
          OnError exampleEnv (some 8) ⟨c, []⟩ = some (⟨c, []⟩, [Event.RLock, Event.RUnlock])) ∧
      ((Callbacks.zero : Callbacks Nat).mu = RWMutex.unlocked →
        ∃ c, (Callbacks.zero : Callbacks Nat).SetOnEOSSent none = some c ∧
          OnEOSSent exampleEnv ⟨c, []⟩ = some (⟨c, []⟩, [Event.RLock, Event.RUnlock]))) ∧
    OnError exampleEnv (some 8) ⟨(Callbacks.zero : Callbacks Nat), [6]⟩ =
      some (⟨Callbacks.zero, [6]⟩, [Event.RLock, Event.RUnlock]) ∧
    OnEOSSent exampleEnv ⟨(Callbacks.zero : Callbacks Nat), [6]⟩ =
      some (⟨Callbacks.zero, [6]⟩, [Event.RLock, Event.RUnlock]) :=
  ⟨rfl, unset_slot_is_a_no_op exampleEnv (some 8) ⟨Callbacks.zero, []⟩ rfl, by decide,
    by decide⟩

end gstreamer

/-! # Theorems: the log-line classifier -/

namespace logging

/-! ## The string functions -/

theorem str_newline : str "\n" = [10] := by decide

theorem str_brace : str "\x7d" = [125] := by decide

/-- A string without the separator is split into itself. -/
theorem Split_of_not_mem (s : GoString) (sep : Nat) (h : sep ∉ s) : Split s sep = [s] := by
  induction s with
  | nil => rfl
  | cons b s ih =>
    have hb : b ≠ sep := fun e => h (e ▸ List.mem_cons_self b s)
    have hs : sep ∉ s := fun e => h (List.mem_cons_of_mem b e)
    simp [Split, hb, ih hs]

/-- The first substring of a split ends at the first separator. -/
theorem Split_append (s t : GoString) (sep : Nat) (h : sep ∉ s) :
    Split (s ++ sep :: t) sep = s :: Split t sep := by
  induction s with
  | nil => simp [Split]
  | cons b s ih =>
    have hb : b ≠ sep := fun e => h (e ▸ List.mem_cons_self b s)
    have hs : sep ∉ s := fun e => h (List.mem_cons_of_mem b e)
    simp [Split, hb, ih hs]

theorem TrimRight_of_not_mem (s : GoString) (h : 10 ∉ s) : TrimRight s (str "\n") = s := by
  rw [TrimRight, str_newline, List.rdropWhile_eq_self_iff]
  intro hl hp
  simp only [List.mem_singleton, decide_eq_true_eq] at hp
  exact h (hp ▸ List.getLast_mem hl)

theorem TrimLeft_of_not_mem (s : GoString) (h : 10 ∉ s) : TrimLeft s (str "\n") = s := by
  cases s with
  | nil => rfl
  | cons b s =>
    have hb : b ≠ 10 := fun e => h (e ▸ List.mem_cons_self b s)
    simp [TrimLeft, str_newline, List.dropWhile_cons, hb]

theorem TrimRight_append_newlines (s : GoString) (n : Nat) :
    TrimRight (s ++ List.replicate n 10) (str "\n") = TrimRight s (str "\n") := by
  induction n with
  | zero => simp
  | succ n ih =>
    rw [List.replicate_succ', ← List.append_assoc, TrimRight,
      List.rdropWhile_concat_pos _ _ _ (by simp [str_newline])]
    exact ih

theorem TrimLeft_newlines_append (s : GoString) (n : Nat) :
    TrimLeft (List.replicate n 10 ++ s) (str "\n") = TrimLeft s (str "\n") := by
  induction n with
  | zero => simp
  | succ n ih =>
    rw [List.replicate_succ, List.cons_append, TrimLeft, List.dropWhile_cons]
    rw [if_pos (by simp [str_newline])]
    exact ih

theorem TrimRight_newlines_append (s : GoString) (n : Nat) :
    TrimRight (List.replicate n 10 ++ s) (str "\n") =
      if TrimRight s (str "\n") = [] then [] else List.replicate n 10 ++ TrimRight s (str "\n") := by
  simp only [TrimRight, List.rdropWhile, List.reverse_append, List.dropWhile_append,
    List.reverse_eq_nil_iff, List.isEmpty_eq_true]
  split
  · rw [List.reverse_eq_nil_iff, List.dropWhile_eq_nil_iff]
    intro x hx
    simp only [List.reverse_replicate, List.mem_replicate] at hx
    simp [hx.2, str_newline]
  · simp

/-- Leading and trailing newlines of a chunk do not change what is left after trimming. -/
theorem Trim_newlines (s : GoString) (a b : Nat) :
    TrimLeft (TrimRight (List.replicate a 10 ++ s ++ List.replicate b 10) (str "\n")) (str "\n") =
      TrimLeft (TrimRight s (str "\n")) (str "\n") := by
  rw [TrimRight_append_newlines, TrimRight_newlines_append]
  split
  · next h => rw [h]
  · rw [TrimLeft_newlines_append]

/-- A chunk that is one line: trimming and splitting leave that line. -/
theorem lines_of_line (line : GoString) (h : 10 ∉ line) :
    Split (TrimLeft (TrimRight line (str "\n")) (str "\n")) 10 = [line] := by
  rw [TrimRight_of_not_mem line h, TrimLeft_of_not_mem line h, Split_of_not_mem line 10 h]

theorem NewHandlerLogger_line (GetLogger : Logger) (handlerID egressID line : GoString)
    (h : 10 ∉ line) :
    NewHandlerLogger GetLogger handlerID egressID line =
      handleLine (GetLogger.WithValues [str "handlerID", handlerID, str "egressID", egressID])
        line := by
  simp [NewHandlerLogger, lines_of_line line h, rangeLines]

/-! ## The table -/

/-- The map `actions` holds the spec's table: indexing it gives the constant of the table's
action, and `logError` (the zero value) for a key that is not in it. -/
theorem index_actions (key : GoString) :
    index actions key =
      match tableAction key with
      | Action.Ignore => ignore
      | Action.Info => logInfo
      | Action.Warn => logWarn
      | Action.Error => logError := by
  by_cases h1 : key = str "0:00:"
  · subst h1; decide
  by_cases h2 : key = str "te_au"
  · subst h2; decide
  by_cases h3 : key = str "turnc"
  · subst h3; decide
  by_cases h4 : key = str "ice E"
  · subst h4; decide
  by_cases h5 : key = str "SDK 2"
  · subst h5; decide
  by_cases h6 : key = str "(egre"
  · subst h6; decide
  simp [index, actions, tableAction, h1, h2, h3, h4, h5, h6, logError]

/-- A key with a byte outside ASCII is not in the table: the first 5 bytes of a line select a
table entry only when they are its first 5 characters. -/
theorem tableAction_of_non_ascii (key : GoString) (h : ∃ b ∈ key, 128 ≤ b) :
    tableAction key = Action.Error := by
  obtain ⟨b, hb, hge⟩ := h
  have hne : ∀ k : GoString, (∀ x ∈ k, x < 128) → key ≠ k := by
    intro k hk e
    have := hk b (e ▸ hb)
    omega
  simp [tableAction, hne (str "0:00:") (by decide), hne (str "te_au") (by decide),
    hne (str "turnc") (by decide), hne (str "ice E") (by decide),
    hne (str "SDK 2") (by decide), hne (str "(egre") (by decide)]

/-- One iteration on a line longer than 5 bytes that does not end with a closing brace. -/
theorem handleLine_long (l : Logger) (line : GoString) (hlen : line.length > 5)
    (hsuf : HasSuffix line (str "\x7d") = false) :
    handleLine l line = dispatchAction l line (tableAction (line.take 5)) := by
  simp only [handleLine, hsuf, hlen, if_true, index_actions]
  cases tableAction (line.take 5) <;> simp [dispatchAction, ignore, logInfo, logWarn, logError]

/-- One iteration on a line of at most 5 bytes that does not end with a closing brace. -/
theorem handleLine_short (l : Logger) (line : GoString) (hlen : line.length ≤ 5)
    (hsuf : HasSuffix line (str "\x7d") = false) :
    handleLine l line = [Output.Errorw l line none] := by
  simp [handleLine, hsuf, Nat.not_lt.mpr hlen, ignore, logInfo, logWarn, logError]

/-- One iteration on a line that ends with a closing brace. -/
theorem handleLine_brace (l : Logger) (line : GoString)
    (hsuf : HasSuffix line (str "\x7d") = true) :
    handleLine l line = [Output.Println line] := by
  simp [handleLine, hsuf]

/-! ## C7 - C10 -/

/-- C7: a chunk that is one line longer than 5 bytes and not ending with a closing brace is
routed by the table entry of its first 5 bytes (`tableAction`: `0:00:` and `te_au` to Ignore;
`turnc`, `ice E` and `SDK 2` to Info; `(egre` to Warn; anything else to Error): Ignore produces
no output, and Info, Warn and Error produce exactly one call of the leveled logger at that
severity, with the whole line as message, on the logger that carries the attributes
`handlerID` and `egressID` (`dispatchAction`). -/
theorem long_line_routed_by_table (GetLogger : Logger) (handlerID egressID line : GoString)
    (hline : 10 ∉ line) (hlen : line.length > 5) (hsuf : HasSuffix line (str "\x7d") = false) :
    NewHandlerLogger GetLogger handlerID egressID line =
      dispatchAction
        ⟨GetLogger.keysAndValues ++ [str "handlerID", handlerID, str "egressID", egressID]⟩
        line (tableAction (line.take 5)) := by
  rw [NewHandlerLogger_line GetLogger handlerID egressID line hline,
    handleLine_long _ line hlen hsuf]
  rfl

/-- Witness of C7: `turnc foo bar` is logged at Info, `0:00: x` is dropped and `xxxxxx` is
logged at Error. -/
theorem long_line_routed_by_table_witness :
    (10 ∉ str "turnc foo bar" ∧ (str "turnc foo bar").length > 5 ∧
      HasSuffix (str "turnc foo bar") (str "\x7d") = false) ∧
    NewHandlerLogger ⟨[]⟩ (str "H1") (str "EG_1") (str "turnc foo bar") =
      [Output.Infow ⟨[str "handlerID", str "H1", str "egressID", str "EG_1"]⟩
        (str "turnc foo bar")] ∧
    NewHandlerLogger ⟨[]⟩ (str "H1") (str "EG_1") (str "0:00: x") = [] ∧
    NewHandlerLogger ⟨[]⟩ (str "H1") (str "EG_1") (str "xxxxxx") =
      [Output.Errorw ⟨[str "handlerID", str "H1", str "egressID", str "EG_1"]⟩
        (str "xxxxxx") none] :=
  ⟨by decide,
    (long_line_routed_by_table ⟨[]⟩ (str "H1") (str "EG_1") (str "turnc foo bar")
      (by decide) (by decide) (by decide)).trans (by decide),
    (long_line_routed_by_table ⟨[]⟩ (str "H1") (str "EG_1") (str "0:00: x")
      (by decide) (by decide) (by decide)).trans (by decide),
    (long_line_routed_by_table ⟨[]⟩ (str "H1") (str "EG_1") (str "xxxxxx")
      (by decide) (by decide) (by decide)).trans (by decide)⟩

/-- C8, what the code does: a line of exactly 5 bytes is never looked up (`len(line) > 5`), so
each of the six table keys as a whole line is logged at Error, while a longer line with the
same first 5 bytes is routed by the table. -/
theorem five_byte_keys_logged_at_error :
    NewHandlerLogger ⟨[]⟩ (str "H1") (str "EG_1") (str "0:00:") =
      [Output.Errorw ⟨[str "handlerID", str "H1", str "egressID", str "EG_1"]⟩
        (str "0:00:") none] ∧
    NewHandlerLogger ⟨[]⟩ (str "H1") (str "EG_1") (str "te_au") =
      [Output.Errorw ⟨[str "handlerID", str "H1", str "egressID", str "EG_1"]⟩
        (str "te_au") none] ∧
    NewHandlerLogger ⟨[]⟩ (str "H1") (str "EG_1") (str "turnc") =
      [Output.Errorw ⟨[str "handlerID", str "H1", str "egressID", str "EG_1"]⟩
        (str "turnc") none] ∧
    NewHandlerLogger ⟨[]⟩ (str "H1") (str "EG_1") (str "ice E") =
      [Output.Errorw ⟨[str "handlerID", str "H1", str "egressID", str "EG_1"]⟩
        (str "ice E") none] ∧
    NewHandlerLogger ⟨[]⟩ (str "H1") (str "EG_1") (str "SDK 2") =
      [Output.Errorw ⟨[str "handlerID", str "H1", str "egressID", str "EG_1"]⟩
        (str "SDK 2") none] ∧
    NewHandlerLogger ⟨[]⟩ (str "H1") (str "EG_1") (str "(egre") =
      [Output.Errorw ⟨[str "handlerID", str "H1", str "egressID", str "EG_1"]⟩
        (str "(egre") none] ∧
    NewHandlerLogger ⟨[]⟩ (str "H1") (str "EG_1") (str "0:00: ") = [] ∧
    NewHandlerLogger ⟨[]⟩ (str "H1") (str "EG_1") (str "(egre ") =
      [Output.Warnw ⟨[str "handlerID", str "H1", str "egressID", str "EG_1"]⟩
        (str "(egre ") none] := by
  decide

/-- Every one-line chunk of exactly 5 bytes that does not end with a closing brace is logged at
Error, whatever its bytes. -/
theorem five_byte_line_logged_at_error (GetLogger : Logger)
    (handlerID egressID line : GoString)
    (hline : 10 ∉ line) (hlen : line.length = 5) (hsuf : HasSuffix line (str "\x7d") = false) :
    NewHandlerLogger GetLogger handlerID egressID line =
      [Output.Errorw
        ⟨GetLogger.keysAndValues ++ [str "handlerID", handlerID, str "egressID", egressID]⟩
        line none] := by
  rw [NewHandlerLogger_line GetLogger handlerID egressID line hline,
    handleLine_short _ line (by omega) hsuf]
  rfl

/-- C9: a line that ends with a closing brace, whatever its length and its first bytes, is
written once, unchanged, with `fmt.Println` and causes no call of the leveled logger: this is
what one iteration of the loop does for such a line, with any logger, and what the callback
does for a chunk that is such a line. -/
theorem brace_line_passed_through (GetLogger : Logger) (handlerID egressID line : GoString)
    (hsuf : HasSuffix line (str "\x7d") = true) :
    (∀ l : Logger, handleLine l line = [Output.Println line]) ∧
    (10 ∉ line →
      NewHandlerLogger GetLogger handlerID egressID line = [Output.Println line]) := by
  refine ⟨fun l => handleLine_brace l line hsuf, fun hline => ?_⟩
  rw [NewHandlerLogger_line GetLogger handlerID egressID line hline,
    handleLine_brace _ line hsuf]

/-- Witness of C9: the one-byte line of a closing brace, and a line with an Ignore key in
front. -/
theorem brace_line_passed_through_witness :
    (HasSuffix (str "\x7d") (str "\x7d") = true ∧ 10 ∉ str "\x7d") ∧
    NewHandlerLogger ⟨[]⟩ (str "H1") (str "EG_1") (str "\x7d") = [Output.Println (str "\x7d")] ∧
    (HasSuffix (str "0:00: \x7b\"a\":1\x7d") (str "\x7d") = true ∧ 10 ∉ str "0:00: \x7b\"a\":1\x7d") ∧
    NewHandlerLogger ⟨[]⟩ (str "H1") (str "EG_1") (str "0:00: \x7b\"a\":1\x7d") =
      [Output.Println (str "0:00: \x7b\"a\":1\x7d")] :=
  ⟨by decide,
    (brace_line_passed_through ⟨[]⟩ (str "H1") (str "EG_1") (str "\x7d") (by decide)).2
      (by decide),
    by decide,
    (brace_line_passed_through ⟨[]⟩ (str "H1") (str "EG_1") (str "0:00: \x7b\"a\":1\x7d")
      (by decide)).2 (by decide)⟩

/-- C10: a chunk with `a` newlines in front of `s` and `b` newlines behind it produces the
outputs of `s`; in particular two newlines, `(egre bad`, two newlines produce one output, the
line `(egre bad` at Warn. -/
theorem newlines_around_chunk_ignored (GetLogger : Logger) (handlerID egressID s : GoString)
    (a b : Nat) :
    NewHandlerLogger GetLogger handlerID egressID
        (List.replicate a 10 ++ s ++ List.replicate b 10) =
      NewHandlerLogger GetLogger handlerID egressID s ∧
    NewHandlerLogger GetLogger handlerID egressID (str "\n\n(egre bad\n\n") =
      [Output.Warnw
        ⟨GetLogger.keysAndValues ++ [str "handlerID", handlerID, str "egressID", egressID]⟩
        (str "(egre bad") none] := by
  constructor
  · simp only [NewHandlerLogger, Trim_newlines]
  · rfl

/-! ## Lines of a chunk -/

theorem Split_ne_nil (s : GoString) (sep : Nat) : Split s sep ≠ [] := by
  cases s with
  | nil => simp [Split]
  | cons b s =>
    simp only [Split]
    split
    · simp
    · split <;> simp

/-- Splitting at an inserted separator: the substrings of the part in front, then those of the
part behind. -/
theorem Split_append_sep (s t : GoString) (sep : Nat) :
    Split (s ++ sep :: t) sep = Split s sep ++ Split t sep := by
  induction s with
  | nil => simp [Split]
  | cons b s ih =>
    by_cases hb : b = sep
    · simp [Split, hb, ih]
    · simp only [List.cons_append, Split, if_neg hb]
      have ih2 : Split (s.append (sep :: t)) sep = Split s sep ++ Split t sep := ih
      rw [ih2]
      cases hs : Split s sep with
      | nil => exact absurd hs (Split_ne_nil s sep)
      | cons x xs => simp

theorem rangeLines_append (l : Logger) (xs ys : List GoString) :
    rangeLines l (xs ++ ys) = rangeLines l xs ++ rangeLines l ys := by
  induction xs with
  | nil => rfl
  | cons x xs ih => simp [rangeLines, ih]

/-- The loop over the lines produces the outputs of each line, in the order of the lines. -/
theorem rangeLines_eq_flatten (l : Logger) (lines : List GoString) :
    rangeLines l lines = (lines.map (handleLine l)).flatten := by
  induction lines with
  | nil => rfl
  | cons x xs ih => simp [rangeLines, ih]

/-- A chunk that neither starts nor ends with a newline is left as it is by the trimming. -/
theorem Trim_self (s : GoString) (hstart : s.head? ≠ some 10) (hend : s.getLast? ≠ some 10) :
    TrimLeft (TrimRight s (str "\n")) (str "\n") = s := by
  have hr : TrimRight s (str "\n") = s := by
    rw [TrimRight, str_newline, List.rdropWhile_eq_self_iff]
    intro hl hp
    simp only [List.mem_singleton, decide_eq_true_eq] at hp
    exact hend (by rw [List.getLast?_eq_getLast _ hl, hp])
  rw [hr]
  cases s with
  | nil => rfl
  | cons b s =>
    have hb : b ≠ 10 := fun e => hstart (by simp [e])
    simp [TrimLeft, str_newline, List.dropWhile_cons, hb]

/-- The lines of two chunks joined by a newline are the lines of the first, then those of the
second. -/
theorem lines_append (s1 s2 : GoString) (h1 : s1 ≠ []) (h2 : s2 ≠ [])
    (h1s : s1.head? ≠ some 10) (h1e : s1.getLast? ≠ some 10)
    (h2s : s2.head? ≠ some 10) (h2e : s2.getLast? ≠ some 10) :
    Split (TrimLeft (TrimRight (s1 ++ 10 :: s2) (str "\n")) (str "\n")) 10 =
      Split (TrimLeft (TrimRight s1 (str "\n")) (str "\n")) 10 ++
        Split (TrimLeft (TrimRight s2 (str "\n")) (str "\n")) 10 := by
  have hs : (s1 ++ 10 :: s2).head? ≠ some 10 := by
    cases s1 with
    | nil => exact absurd rfl h1
    | cons b s => simpa using h1s
  have he : (s1 ++ 10 :: s2).getLast? ≠ some 10 := by
    rw [List.getLast?_append_of_ne_nil _ (by simp)]
    cases s2 with
    | nil => exact absurd rfl h2
    | cons b s => simpa [List.getLast?_cons_cons] using h2e
  rw [Trim_self _ hs he, Trim_self s1 h1s h1e, Trim_self s2 h2s h2e, Split_append_sep]

/-! ## C11, C12, C15, C16 -/

/-- C11: a chunk that is one line shorter than 5 bytes and not ending with a closing brace, even
a proper beginning of a table key, is logged once at Error with the line unchanged as message;
so is such a line with a byte outside ASCII among its first 5 bytes, which covers every line of
fewer than 5 characters that takes 5 bytes or more. -/
theorem short_line_logged_at_error (GetLogger : Logger) (handlerID egressID line : GoString)
    (hline : 10 ∉ line) (hsuf : HasSuffix line (str "\x7d") = false) :
    (line.length < 5 →
      NewHandlerLogger GetLogger handlerID egressID line =
        [Output.Errorw
          ⟨GetLogger.keysAndValues ++ [str "handlerID", handlerID, str "egressID", egressID]⟩
          line none]) ∧
    ((∃ b ∈ line.take 5, 128 ≤ b) →
      NewHandlerLogger GetLogger handlerID egressID line =
        [Output.Errorw
          ⟨GetLogger.keysAndValues ++ [str "handlerID", handlerID, str "egressID", egressID]⟩
          line none]) := by
  rw [NewHandlerLogger_line GetLogger handlerID egressID line hline]
  constructor
  · intro hlen
    rw [handleLine_short _ line (by omega) hsuf]
    rfl
  · intro hb
    by_cases hlen : line.length > 5
    · rw [handleLine_long _ line hlen hsuf, tableAction_of_non_ascii _ hb]
      rfl
    · rw [handleLine_short _ line (by omega) hsuf]
      rfl

/-- Witness of C11: the 3-byte lines `tur` and `0:0`, beginnings of the keys `turnc` and
`0:00:`, are logged at Error. -/
theorem short_line_logged_at_error_witness :
    (10 ∉ str "tur" ∧ HasSuffix (str "tur") (str "\x7d") = false ∧ (str "tur").length < 5) ∧
    NewHandlerLogger ⟨[]⟩ (str "H1") (str "EG_1") (str "tur") =
      [Output.Errorw ⟨[str "handlerID", str "H1", str "egressID", str "EG_1"]⟩
        (str "tur") none] ∧
    (10 ∉ str "0:0" ∧ HasSuffix (str "0:0") (str "\x7d") = false ∧ (str "0:0").length < 5) ∧
    NewHandlerLogger ⟨[]⟩ (str "H1") (str "EG_1") (str "0:0") =
      [Output.Errorw ⟨[str "handlerID", str "H1", str "egressID", str "EG_1"]⟩
        (str "0:0") none] :=
  ⟨by decide,
    (short_line_logged_at_error ⟨[]⟩ (str "H1") (str "EG_1") (str "tur")
      (by decide) (by decide)).1 (by decide),
    by decide,
    (short_line_logged_at_error ⟨[]⟩ (str "H1") (str "EG_1") (str "0:0")
      (by decide) (by decide)).1 (by decide)⟩

/-- What a one-line chunk produces: nothing exactly when the line does not end with a closing
brace, is longer than 5 bytes and begins with `0:00:` or `te_au`; one output otherwise. -/
theorem line_output_count (GetLogger : Logger) (handlerID egressID line : GoString)
    (hline : 10 ∉ line) :
    (NewHandlerLogger GetLogger handlerID egressID line = [] ↔
      HasSuffix line (str "\x7d") = false ∧ line.length > 5 ∧
        (line.take 5 = str "0:00:" ∨ line.take 5 = str "te_au")) ∧
    (NewHandlerLogger GetLogger handlerID egressID line ≠ [] →
      (NewHandlerLogger GetLogger handlerID egressID line).length = 1) := by
  rw [NewHandlerLogger_line GetLogger handlerID egressID line hline]
  cases hsuf : HasSuffix line (str "\x7d") with
  | true => simp [handleLine_brace _ line hsuf]
  | false =>
    by_cases hlen : line.length > 5
    · rw [handleLine_long _ line hlen hsuf]
      by_cases h1 : line.take 5 = str "0:00:"
      · simp [tableAction, h1, dispatchAction, hlen]
      by_cases h2 : line.take 5 = str "te_au"
      · simp [tableAction, h1, h2, dispatchAction, hlen]
      have hne : tableAction (List.take 5 line) ≠ Action.Ignore := by
        simp only [tableAction, h1, h2, or_self, if_false]
        split
        · simp
        · split <;> simp
      cases ht : tableAction (List.take 5 line) with
      | Ignore => exact absurd ht hne
      | Info => simp [dispatchAction, h1, h2]
      | Warn => simp [dispatchAction, h1, h2]
      | Error => simp [dispatchAction, h1, h2]
    · rw [handleLine_short _ line (by omega) hsuf]
      simp [hlen]

/-- C12, what the code does: the Ignore keys `0:00:` and `te_au` as whole lines (5 bytes, so
never looked up) are not dropped but logged at Error, while the same keys followed by one more
byte are dropped. -/
theorem bare_ignore_key_not_dropped :
    NewHandlerLogger ⟨[]⟩ (str "H1") (str "EG_1") (str "0:00:") =
      [Output.Errorw ⟨[str "handlerID", str "H1", str "egressID", str "EG_1"]⟩
        (str "0:00:") none] ∧
    NewHandlerLogger ⟨[]⟩ (str "H1") (str "EG_1") (str "te_au") =
      [Output.Errorw ⟨[str "handlerID", str "H1", str "egressID", str "EG_1"]⟩
        (str "te_au") none] ∧
    NewHandlerLogger ⟨[]⟩ (str "H1") (str "EG_1") (str "0:00:0") = [] ∧
    NewHandlerLogger ⟨[]⟩ (str "H1") (str "EG_1") (str "te_aud") = [] := by
  decide

/-- C15: the empty chunk and every chunk of newlines only produce exactly one output, a call at
Error with the empty message; in a chunk (with any newlines in front and behind, which are
trimmed) a blank line between two parts `s1` and `s2` that neither start nor end with a newline
produces one call at Error with the empty message, between the outputs of the two parts; so
does the middle line of `turnc a`, blank line, `turnc b`. -/
theorem empty_line_logged_at_error (GetLogger : Logger) (handlerID egressID : GoString) :
    (∀ n, NewHandlerLogger GetLogger handlerID egressID (List.replicate n 10) =
      [Output.Errorw
        ⟨GetLogger.keysAndValues ++ [str "handlerID", handlerID, str "egressID", egressID]⟩
        [] none]) ∧
    (∀ (a b : Nat) (s1 s2 : GoString), s1 ≠ [] → s2 ≠ [] →
      s1.head? ≠ some 10 → s1.getLast? ≠ some 10 →
      s2.head? ≠ some 10 → s2.getLast? ≠ some 10 →
      NewHandlerLogger GetLogger handlerID egressID
          (List.replicate a 10 ++ (s1 ++ 10 :: 10 :: s2) ++ List.replicate b 10) =
        NewHandlerLogger GetLogger handlerID egressID s1 ++
          Output.Errorw
            ⟨GetLogger.keysAndValues ++
              [str "handlerID", handlerID, str "egressID", egressID]⟩ [] none ::
          NewHandlerLogger GetLogger handlerID egressID s2) ∧
    NewHandlerLogger GetLogger handlerID egressID (str "turnc a\n\nturnc b") =
      [Output.Infow
        ⟨GetLogger.keysAndValues ++ [str "handlerID", handlerID, str "egressID", egressID]⟩
        (str "turnc a"),
       Output.Errorw
        ⟨GetLogger.keysAndValues ++ [str "handlerID", handlerID, str "egressID", egressID]⟩
        [] none,
       Output.Infow
        ⟨GetLogger.keysAndValues ++ [str "handlerID", handlerID, str "egressID", egressID]⟩
        (str "turnc b")] := by
  refine ⟨fun n => ?_, fun a b s1 s2 h1 h2 h1s h1e h2s h2e => ?_, rfl⟩
  · have h := Trim_newlines [] n 0
    simp only [List.append_nil, List.replicate_zero] at h
    simp only [NewHandlerLogger, h]
    rfl
  · have hs : (s1 ++ 10 :: 10 :: s2).head? ≠ some 10 := by
      cases s1 with
      | nil => exact absurd rfl h1
      | cons b s => simpa using h1s
    have he : (s1 ++ 10 :: 10 :: s2).getLast? ≠ some 10 := by
      rw [List.getLast?_append_of_ne_nil _ (by simp)]
      cases s2 with
      | nil => exact absurd rfl h2
      | cons b s => simpa [List.getLast?_cons_cons] using h2e
    simp only [NewHandlerLogger, Trim_newlines, Trim_self _ hs he, Trim_self s1 h1s h1e,
      Trim_self s2 h2s h2e]
    have hsplit : Split (s1 ++ 10 :: 10 :: s2) 10 = Split s1 10 ++ [] :: Split s2 10 := by
      rw [Split_append_sep]
      simp [Split]
    rw [hsplit, rangeLines_append]
    rfl

/-- C16: for non-empty chunks `s1` and `s2` that neither start nor end with a newline, the
outputs of `s1`, a newline, `s2` are the outputs of `s1` followed by the outputs of `s2`; and
the outputs of every chunk are the outputs of its lines, each computed from that line alone,
in the order of the lines. -/
theorem outputs_of_joined_chunks (GetLogger : Logger) (handlerID egressID s1 s2 : GoString)
    (h1 : s1 ≠ []) (h2 : s2 ≠ [])
    (h1s : s1.head? ≠ some 10) (h1e : s1.getLast? ≠ some 10)
    (h2s : s2.head? ≠ some 10) (h2e : s2.getLast? ≠ some 10) :
    NewHandlerLogger GetLogger handlerID egressID (s1 ++ 10 :: s2) =
      NewHandlerLogger GetLogger handlerID egressID s1 ++
        NewHandlerLogger GetLogger handlerID egressID s2 ∧
    ∀ s, NewHandlerLogger GetLogger handlerID egressID s =
      ((Split (TrimLeft (TrimRight s (str "\n")) (str "\n")) 10).map
        (handleLine
          ⟨GetLogger.keysAndValues ++
            [str "handlerID", handlerID, str "egressID", egressID]⟩)).flatten := by
  constructor
  · simp only [NewHandlerLogger, lines_append s1 s2 h1 h2 h1s h1e h2s h2e, rangeLines_append]
  · intro s
    simp only [NewHandlerLogger, rangeLines_eq_flatten]
    rfl

/-- Witness of C16: an Ignore line followed by an Info line and a line of an unknown kind: the
outputs are those of the two parts, in order, and the dropped first line does not stop the
others. -/
theorem outputs_of_joined_chunks_witness :
    (str "0:00: x" ≠ [] ∧ str "turnc b\nyyyyyy" ≠ [] ∧
      (str "0:00: x").head? ≠ some 10 ∧ (str "0:00: x").getLast? ≠ some 10 ∧
      (str "turnc b\nyyyyyy").head? ≠ some 10 ∧ (str "turnc b\nyyyyyy").getLast? ≠ some 10) ∧
    NewHandlerLogger ⟨[]⟩ (str "H1") (str "EG_1") (str "0:00: x" ++ 10 :: str "turnc b\nyyyyyy") =
      NewHandlerLogger ⟨[]⟩ (str "H1") (str "EG_1") (str "0:00: x") ++
        NewHandlerLogger ⟨[]⟩ (str "H1") (str "EG_1") (str "turnc b\nyyyyyy") ∧
    NewHandlerLogger ⟨[]⟩ (str "H1") (str "EG_1") (str "0:00: x\nturnc b\nyyyyyy") =
      [Output.Infow ⟨[str "handlerID", str "H1", str "egressID", str "EG_1"]⟩ (str "turnc b"),
       Output.Errorw ⟨[str "handlerID", str "H1", str "egressID", str "EG_1"]⟩
        (str "yyyyyy") none] :=
  ⟨by decide,
    (outputs_of_joined_chunks ⟨[]⟩ (str "H1") (str "EG_1") (str "0:00: x")
      (str "turnc b\nyyyyyy") (by decide) (by decide) (by decide) (by decide) (by decide)
      (by decide)).1,
    by decide⟩

end logging

/-! # Theorems: the lock and the isolation of the event kinds -/

namespace gstreamer

variable {F U E A : Type}

/-! ## The write lock of `SetOnX` and `AddOnX` -/

theorem muLock_none (c : Callbacks F) (h : c.mu ≠ RWMutex.unlocked) : c.muLock = none := by
  obtain ⟨⟨wr, rd⟩, _⟩ := c
  simp only [RWMutex.unlocked, ne_eq, RWMutex.mk.injEq, not_and] at h
  simp only [Callbacks.muLock, RWMutex.Lock, Option.map_eq_none', ite_eq_right_iff,
    reduceCtorEq, imp_false, not_and]
  exact h

theorem muRLock_none (c : Callbacks F) (h : c.mu.writer = true) : c.muRLock = none := by
  simp [Callbacks.muRLock, RWMutex.RLock, h]

theorem takesWriteLock_of (m : Callbacks F → Option (Callbacks F))
    (change : Callbacks F → Callbacks F)
    (h1 : ∀ c, c.mu = RWMutex.unlocked → m c = some (change c))
    (h2 : ∀ c, c.mu ≠ RWMutex.unlocked → m c = none)
    (hmu : ∀ c, (change c).mu = c.mu) : TakesWriteLock m :=
  fun c => ⟨fun h => ⟨change c, h1 c h, (hmu c).trans h⟩, h2 c⟩

theorem changesOnly_of (m : Callbacks F → Option (Callbacks F))
    (change : Callbacks F → Callbacks F)
    (h1 : ∀ c, c.mu = RWMutex.unlocked → m c = some (change c))
    (h2 : ∀ c, c.mu ≠ RWMutex.unlocked → m c = none) : ChangesOnly m change := by
  intro c
  refine ⟨h1 c, fun c' hc => ?_⟩
  by_cases h : c.mu = RWMutex.unlocked
  · rw [h1 c h] at hc
    exact (Option.some.inj hc).symm
  · rw [h2 c h] at hc
    exact absurd hc (by simp)

/-! ## The read lock of a dispatch loop -/

/-- A dispatch that takes the read lock, copies `list`, releases the lock and then loops over
the copy releases the lock before it calls a handler. -/
theorem lockReleased_of_rangeCall (list : Callbacks F → List F)
    (call : F → A → World F U → Option (World F U)) (args : A)
    (dispatch : World F U → Option (World F U × List (Event F A Unit)))
    (hd : ∀ w, dispatch w =
      if w.c.mu.writer = false then
        (rangeCall call args (list w.c) w).map fun r =>
          (r.1, Event.RLock :: Event.RUnlock :: r.2)
      else none) :
    LockReleasedBeforeCalls list (fun f => call f args) dispatch := by
  refine ⟨fun w hw => ?_, fun w w' events hrun => ?_, fun w hw hret => ?_⟩
  · rw [hd w, if_neg (by simp [hw])]
  · rw [hd w] at hrun
    split at hrun
    · simp only [Option.map_eq_some', Prod.mk.injEq] at hrun
      obtain ⟨⟨w2, ev⟩, hr, -, rfl⟩ := hrun
      refine ⟨ev, rfl, fun e he => ?_⟩
      rw [rangeCall_events call args _ w w2 ev hr] at he
      obtain ⟨f, -, rfl⟩ := List.mem_map.mp he
      exact ⟨f, args, (), rfl⟩
    · simp at hrun
  · obtain ⟨w', hrun, hmu⟩ := rangeCall_returns call args
      (fun w => w.c.mu = RWMutex.unlocked) (list w.c) hret w hw
    exact ⟨w', _, by rw [hd w, if_pos (by simp [hw, RWMutex.unlocked]), hrun]; rfl, hmu⟩

/-- The loop over handlers that are all `probe` records the mutex once for each handler. -/
theorem rangeCall_probe (args : A) (fs : List F) (w : World F (List RWMutex)) :
    rangeCall (fun _ _ w => some (probe w)) args fs w =
      some (⟨w.c, w.rest ++ List.replicate fs.length w.c.mu⟩,
        fs.map fun f => Event.call f args ()) := by
  induction fs generalizing w with
  | nil => simp [rangeCall]
  | cons f fs ih =>
    simp only [rangeCall, Option.bind_eq_bind, Option.some_bind, ih, Option.pure_def,
      List.map_cons, List.length_cons, Option.some.injEq, Prod.mk.injEq, and_true]
    simp [probe, List.replicate_succ]

theorem handlersFindLock_of_rangeCall (list : Callbacks F → List F) (args : A)
    (dispatch : World F (List RWMutex) →
      Option (World F (List RWMutex) × List (Event F A Unit)))
    (hd : ∀ w, dispatch w =
      if w.c.mu.writer = false then
        (rangeCall (fun _ _ w => some (probe w)) args (list w.c) w).map fun r =>
          (r.1, Event.RLock :: Event.RUnlock :: r.2)
      else none) :
    HandlersFindLock list dispatch := by
  intro w hw
  rw [hd w, if_pos hw, rangeCall_probe]
  exact ⟨_, rfl⟩

/-! ## The frame of a dispatch loop -/

theorem rangeCall_frame (call : F → A → World F U → Option (World F U)) (args : A)
    (hframe : ∀ f w1 w2, call f args w1 = some w2 → w2.c = w1.c)
    (fs : List F) (w w' : World F U) (events : List (Event F A Unit))
    (h : rangeCall call args fs w = some (w', events)) : w'.c = w.c := by
  induction fs generalizing w events with
  | nil =>
    simp only [rangeCall, Option.some.injEq, Prod.mk.injEq] at h
    rw [← h.1]
  | cons f fs ih =>
    simp only [rangeCall, Option.bind_eq_bind, Option.bind_eq_some, Option.pure_def] at h
    obtain ⟨w1, h1, ⟨w2, ev⟩, h2, h3⟩ := h
    simp only [Option.some.injEq, Prod.mk.injEq] at h3
    obtain ⟨rfl, -⟩ := h3
    rw [← hframe f w w1 h1]
    exact ih w1 ev h2

/-- A dispatch that loops over a copy of `list` calls the handlers of `list` only, and changes
the registry only through its handlers. -/
theorem invokesOnly_of_rangeCall (list : Callbacks F → List F)
    (call : F → A → World F U → Option (World F U)) (args : A)
    (dispatch : World F U → Option (World F U × List F))
    (hd : ∀ w, dispatch w =
      if w.c.mu.writer = false then
        (rangeCall call args (list w.c) w).map fun r => (r.1, calls r.2)
      else none) :
    InvokesOnly list (fun f => call f args) dispatch := by
  refine ⟨fun w w' called hrun => ?_, fun w w' called hframe hrun => ?_⟩
  · rw [hd w] at hrun
    split at hrun
    · simp only [Option.map_eq_some', Prod.mk.injEq] at hrun
      obtain ⟨⟨w2, events⟩, hr, -, hc⟩ := hrun
      rw [rangeCall_events call args _ w w2 events hr, calls_map_call] at hc
      exact hc.symm
    · simp at hrun
  · rw [hd w] at hrun
    split at hrun
    · simp only [Option.map_eq_some', Prod.mk.injEq] at hrun
      obtain ⟨⟨w2, events⟩, hr, rfl, -⟩ := hrun
      exact rangeCall_frame call args hframe _ w w2 events hr
    · simp at hrun

/-! ## Each method when the lock is not available -/

theorem AddOnStop_none (c : Callbacks F) (f : F) (h : c.mu ≠ RWMutex.unlocked) :
    c.AddOnStop f = none := by
  simp [Callbacks.AddOnStop, muLock_none c h]

theorem AddOnTrackSubscribed_none (c : Callbacks F) (f : F) (h : c.mu ≠ RWMutex.unlocked) :
    c.AddOnTrackSubscribed f = none := by
  simp [Callbacks.AddOnTrackSubscribed, muLock_none c h]

theorem AddOnTrackForwardRTP_none (c : Callbacks F) (f : F) (h : c.mu ≠ RWMutex.unlocked) :
    c.AddOnTrackForwardRTP f = none := by
  simp [Callbacks.AddOnTrackForwardRTP, muLock_none c h]

theorem AddOnTrackAdded_none (c : Callbacks F) (f : F) (h : c.mu ≠ RWMutex.unlocked) :
    c.AddOnTrackAdded f = none := by
  simp [Callbacks.AddOnTrackAdded, muLock_none c h]

theorem AddOnTrackMuted_none (c : Callbacks F) (f : F) (h : c.mu ≠ RWMutex.unlocked) :
    c.AddOnTrackMuted f = none := by
  simp [Callbacks.AddOnTrackMuted, muLock_none c h]

theorem AddOnTrackUnmuted_none (c : Callbacks F) (f : F) (h : c.mu ≠ RWMutex.unlocked) :
    c.AddOnTrackUnmuted f = none := by
  simp [Callbacks.AddOnTrackUnmuted, muLock_none c h]

theorem AddOnTrackRemoved_none (c : Callbacks F) (f : F) (h : c.mu ≠ RWMutex.unlocked) :
    c.AddOnTrackRemoved f = none := by
  simp [Callbacks.AddOnTrackRemoved, muLock_none c h]

theorem SetOnError_none (c : Callbacks F) (f : Option F) (h : c.mu ≠ RWMutex.unlocked) :
    c.SetOnError f = none := by
  simp [Callbacks.SetOnError, muLock_none c h]

theorem SetOnEOSSent_none (c : Callbacks F) (f : Option F) (h : c.mu ≠ RWMutex.unlocked) :
    c.SetOnEOSSent f = none := by
  simp [Callbacks.SetOnEOSSent, muLock_none c h]

theorem OnStop_none (env : Env F U E) (w : World F U) (hw : w.c.mu.writer = true) :
    OnStop env w = none := by
  simp [OnStop, muRLock_none w.c hw]

theorem OnError_none (env : Env F U E) (err : Option E) (w : World F U)
    (hw : w.c.mu.writer = true) : OnError env err w = none := by
  simp [OnError, muRLock_none w.c hw]

theorem OnEOSSent_none (env : Env F U E) (w : World F U) (hw : w.c.mu.writer = true) :
    OnEOSSent env w = none := by
  simp [OnEOSSent, muRLock_none w.c hw]

/-! ## The lock in `OnStop`, `OnError` and `OnEOSSent` -/

/-- The events of the loop of `OnStop` are calls. -/
theorem rangeStop_events (call : F → Unit → World F U → Option (World F U × Option E))
    (fs : List F) (errArray errArray' : ErrArray E) (w w' : World F U)
    (events : List (Event F Unit (Option E)))
    (h : rangeStop call fs errArray w = some (w', errArray', events)) :
    ∀ e ∈ events, ∃ f args ret, e = Event.call f args ret := by
  induction fs generalizing errArray w events with
  | nil =>
    simp only [rangeStop, Option.some.injEq, Prod.mk.injEq] at h
    rw [← h.2.2]
    simp
  | cons f fs ih =>
    simp only [rangeStop, Option.bind_eq_bind, Option.bind_eq_some, Option.pure_def] at h
    obtain ⟨⟨w1, err⟩, -, ⟨w2, ea, ev⟩, h2, h3⟩ := h
    simp only [Option.some.injEq, Prod.mk.injEq] at h3
    obtain ⟨rfl, rfl, rfl⟩ := h3
    intro e he
    rcases List.mem_cons.mp he with rfl | hin
    · exact ⟨f, (), err, rfl⟩
    · exact ih _ w1 ev h2 e hin

theorem OnStop_lockReleased (env : Env F U E) :
    LockReleasedBeforeCalls Callbacks.onStop (fun f w => (env.callStop f () w).map Prod.fst)
      (fun w => (OnStop env w).map fun r => (r.1, r.2.2)) := by
  refine ⟨fun w hw => ?_, fun w w' events hrun => ?_, fun w hw hret => ?_⟩
  · simp [OnStop_none env w hw]
  · beta_reduce at hrun ⊢
    by_cases hw : w.c.mu.writer = false
    · rw [OnStop_eq env w hw] at hrun
      simp only [Option.map_map, Option.map_eq_some', Function.comp_apply,
        Prod.mk.injEq] at hrun
      obtain ⟨⟨w2, ea, ev⟩, hr, -, rfl⟩ := hrun
      exact ⟨ev, rfl, rangeStop_events env.callStop _ _ ea w w2 ev hr⟩
    · rw [OnStop_none env w (by simpa using hw)] at hrun
      simp at hrun
  · have hret2 : ∀ f ∈ w.c.onStop, ∀ w1 : World F U, w1.c.mu = RWMutex.unlocked →
        ∃ w2 err, env.callStop f () w1 = some (w2, err) ∧ w2.c.mu = RWMutex.unlocked := by
      intro f hf w1 h1
      obtain ⟨w2, h2, hmu2⟩ := hret f hf w1 h1
      simp only [Option.map_eq_some'] at h2
      obtain ⟨⟨w3, err⟩, h3, rfl⟩ := h2
      exact ⟨w3, err, h3, hmu2⟩
    obtain ⟨w', rets, -, hmu, hrun⟩ := rangeStop_returns env.callStop
      (fun w => w.c.mu = RWMutex.unlocked) w.c.onStop hret2 ⟨[]⟩ w hw
    refine ⟨w', Event.RLock :: Event.RUnlock ::
      List.zipWith (fun f ret => Event.call f () ret) w.c.onStop rets, ?_, hmu⟩
    beta_reduce
    rw [OnStop_eq env w (by simp [hw, RWMutex.unlocked]), hrun]
    rfl

theorem OnError_lockReleased (env : Env F U E) (err : Option E) :
    LockReleasedBeforeCalls (fun c => c.onError.toList) (fun f => env.callError f err)
      (OnError env err) := by
  refine ⟨fun w hw => OnError_none env err w hw, fun w w' events hrun => ?_,
    fun w hw hret => ?_⟩
  · beta_reduce at hrun ⊢
    by_cases hw : w.c.mu.writer = false
    · rw [OnError_eq env err w hw] at hrun
      cases hs : w.c.onError with
      | none =>
        simp only [hs, Option.some.injEq, Prod.mk.injEq] at hrun
        exact ⟨[], hrun.2.symm, by simp⟩
      | some f =>
        simp only [hs, Option.map_eq_some', Prod.mk.injEq] at hrun
        obtain ⟨w2, -, -, rfl⟩ := hrun
        exact ⟨[Event.call f err ()], rfl, by simp⟩
    · rw [OnError_none env err w (by simpa using hw)] at hrun
      simp at hrun
  · rw [OnError_eq env err w (by simp [hw, RWMutex.unlocked])]
    cases hs : w.c.onError with
    | none => exact ⟨w, [Event.RLock, Event.RUnlock], rfl, hw⟩
    | some f =>
      obtain ⟨w2, h2, hmu2⟩ := hret f (by simp [hs]) w hw
      have h2' : env.callError f err w = some w2 := h2
      exact ⟨w2, [Event.RLock, Event.RUnlock, Event.call f err ()], by simp [h2'], hmu2⟩

theorem OnEOSSent_lockReleased (env : Env F U E) :
    LockReleasedBeforeCalls (fun c => c.onEOSSent.toList) (fun f => env.callVoid f ())
      (OnEOSSent env) := by
  refine ⟨fun w hw => OnEOSSent_none env w hw, fun w w' events hrun => ?_,
    fun w hw hret => ?_⟩
  · beta_reduce at hrun ⊢
    by_cases hw : w.c.mu.writer = false
    · rw [OnEOSSent_eq env w hw] at hrun
      cases hs : w.c.onEOSSent with
      | none =>
        simp only [hs, Option.some.injEq, Prod.mk.injEq] at hrun
        exact ⟨[], hrun.2.symm, by simp⟩
      | some f =>
        simp only [hs, Option.map_eq_some', Prod.mk.injEq] at hrun
        obtain ⟨w2, -, -, rfl⟩ := hrun
        exact ⟨[Event.call f () ()], rfl, by simp⟩
    · rw [OnEOSSent_none env w (by simpa using hw)] at hrun
      simp at hrun
  · rw [OnEOSSent_eq env w (by simp [hw, RWMutex.unlocked])]
    cases hs : w.c.onEOSSent with
    | none => exact ⟨w, [Event.RLock, Event.RUnlock], rfl, hw⟩
    | some f =>
      obtain ⟨w2, h2, hmu2⟩ := hret f (by simp [hs]) w hw
      have h2' : env.callVoid f () w = some w2 := h2
      exact ⟨w2, [Event.RLock, Event.RUnlock, Event.call f () ()], by simp [h2'], hmu2⟩

/-- The loop of `OnStop` over handlers that are all `probe`. -/
theorem rangeStop_probe (fs : List F) (errArray : ErrArray Unit)
    (w : World F (List RWMutex)) :
    rangeStop (fun _ _ w => some (probe w, none)) fs errArray w =
      some (⟨w.c, w.rest ++ List.replicate fs.length w.c.mu⟩, errArray,
        fs.map fun f => Event.call f () none) := by
  induction fs generalizing w with
  | nil => simp [rangeStop]
  | cons f fs ih =>
    simp only [rangeStop, Option.bind_eq_bind, Option.some_bind, ErrArray.Check, ih,
      Option.pure_def, List.map_cons, List.length_cons, Option.some.injEq, Prod.mk.injEq,
      and_true]
    simp [probe, List.replicate_succ]

theorem OnStop_handlersFindLock :
    HandlersFindLock Callbacks.onStop
      (fun w => (OnStop (lockProbe : Env F (List RWMutex) Unit) w).map
        fun r => (r.1, r.2.2)) := by
  intro w hw
  beta_reduce
  rw [OnStop_eq lockProbe w hw]
  have h : rangeStop (lockProbe : Env F (List RWMutex) Unit).callStop w.c.onStop ⟨[]⟩ w = _ :=
    rangeStop_probe w.c.onStop ⟨[]⟩ w
  rw [h]
  exact ⟨_, rfl⟩

theorem OnError_handlersFindLock (err : Option Unit) :
    HandlersFindLock (fun c => c.onError.toList)
      (OnError (lockProbe : Env F (List RWMutex) Unit) err) := by
  intro w hw
  rw [OnError_eq lockProbe err w hw]
  obtain ⟨c, rest⟩ := w
  cases hs : c.onError with
  | none => exact ⟨[Event.RLock, Event.RUnlock], by simp [hs]⟩
  | some f =>
    exact ⟨[Event.RLock, Event.RUnlock, Event.call f err ()], by simp [lockProbe, probe, hs]⟩

theorem OnEOSSent_handlersFindLock :
    HandlersFindLock (fun c => c.onEOSSent.toList)
      (OnEOSSent (lockProbe : Env F (List RWMutex) Unit)) := by
  intro w hw
  rw [OnEOSSent_eq lockProbe w hw]
  obtain ⟨c, rest⟩ := w
  cases hs : c.onEOSSent with
  | none => exact ⟨[Event.RLock, Event.RUnlock], by simp [hs]⟩
  | some f =>
    exact ⟨[Event.RLock, Event.RUnlock, Event.call f () ()], by simp [lockProbe, probe, hs]⟩

/-! ## The handlers called by `OnError` and `OnEOSSent` -/

theorem OnError_invokesOnly (env : Env F U E) (err : Option E) :
    InvokesOnly (fun c => c.onError.toList) (fun f => env.callError f err)
      (fun w => (OnError env err w).map fun r => (r.1, calls r.2)) := by
  refine ⟨fun w w' called hrun => ?_, fun w w' called hframe hrun => ?_⟩
  · beta_reduce at hrun ⊢
    by_cases hw : w.c.mu.writer = false
    · rw [OnError_eq env err w hw] at hrun
      cases hs : w.c.onError with
      | none =>
        simp only [hs, Option.map_some', Option.some.injEq, Prod.mk.injEq] at hrun
        rw [← hrun.2]
        simp [calls, Event.callee]
      | some f =>
        simp only [hs, Option.map_map, Option.map_eq_some', Function.comp_apply,
          Prod.mk.injEq] at hrun
        obtain ⟨w2, -, -, rfl⟩ := hrun
        simp [calls, Event.callee]
    · rw [OnError_none env err w (by simpa using hw)] at hrun
      simp at hrun
  · beta_reduce at hrun ⊢
    by_cases hw : w.c.mu.writer = false
    · rw [OnError_eq env err w hw] at hrun
      cases hs : w.c.onError with
      | none =>
        simp only [hs, Option.map_some', Option.some.injEq, Prod.mk.injEq] at hrun
        rw [← hrun.1]
      | some f =>
        simp only [hs, Option.map_map, Option.map_eq_some', Function.comp_apply,
          Prod.mk.injEq] at hrun
        obtain ⟨w2, h2, rfl, -⟩ := hrun
        exact hframe f w w2 h2
    · rw [OnError_none env err w (by simpa using hw)] at hrun
      simp at hrun

theorem OnEOSSent_invokesOnly (env : Env F U E) :
    InvokesOnly (fun c => c.onEOSSent.toList) (fun f => env.callVoid f ())
      (fun w => (OnEOSSent env w).map fun r => (r.1, calls r.2)) := by
  refine ⟨fun w w' called hrun => ?_, fun w w' called hframe hrun => ?_⟩
  · beta_reduce at hrun ⊢
    by_cases hw : w.c.mu.writer = false
    · rw [OnEOSSent_eq env w hw] at hrun
      cases hs : w.c.onEOSSent with
      | none =>
        simp only [hs, Option.map_some', Option.some.injEq, Prod.mk.injEq] at hrun
        rw [← hrun.2]
        simp [calls, Event.callee]
      | some f =>
        simp only [hs, Option.map_map, Option.map_eq_some', Function.comp_apply,
          Prod.mk.injEq] at hrun
        obtain ⟨w2, -, -, rfl⟩ := hrun
        simp [calls, Event.callee]
    · rw [OnEOSSent_none env w (by simpa using hw)] at hrun
      simp at hrun
  · beta_reduce at hrun ⊢
    by_cases hw : w.c.mu.writer = false
    · rw [OnEOSSent_eq env w hw] at hrun
      cases hs : w.c.onEOSSent with
      | none =>
        simp only [hs, Option.map_some', Option.some.injEq, Prod.mk.injEq] at hrun
        rw [← hrun.1]
      | some f =>
        simp only [hs, Option.map_map, Option.map_eq_some', Function.comp_apply,
          Prod.mk.injEq] at hrun
        obtain ⟨w2, h2, rfl, -⟩ := hrun
        exact hframe f w w2 h2
    · rw [OnEOSSent_none env w (by simpa using hw)] at hrun
      simp at hrun

theorem OnTrackSubscribed_calls_eq (env : Env F U E) (track pub rp : Ptr) (w : World F U) :
    (OnTrackSubscribed env track pub rp w).map (fun r => (r.1, calls r.2)) =
      if w.c.mu.writer = false then
        (rangeCall env.callTrackSubscribed (track, pub, rp) w.c.onTrackSubscribed w).map fun r => (r.1, calls r.2)
      else none := by
  rw [OnTrackSubscribed_eq]
  split
  · cases rangeCall env.callTrackSubscribed (track, pub, rp) w.c.onTrackSubscribed w with
    | none => rfl
    | some r => simp [calls_locks]
  · rfl

theorem OnTrackForwardRTP_calls_eq (env : Env F U E) (track packet : Ptr) (w : World F U) :
    (OnTrackForwardRTP env track packet w).map (fun r => (r.1, calls r.2)) =
      if w.c.mu.writer = false then
        (rangeCall env.callTrackForwardRTP (track, packet) w.c.onTrackForwardRTP w).map fun r => (r.1, calls r.2)
      else none := by
  rw [OnTrackForwardRTP_eq]
  split
  · cases rangeCall env.callTrackForwardRTP (track, packet) w.c.onTrackForwardRTP w with
    | none => rfl
    | some r => simp [calls_locks]
  · rfl

theorem OnTrackAdded_calls_eq (env : Env F U E) (ts : Ptr) (w : World F U) :
    (OnTrackAdded env ts w).map (fun r => (r.1, calls r.2)) =
      if w.c.mu.writer = false then
        (rangeCall env.callTrackAdded ts w.c.onTrackAdded w).map fun r => (r.1, calls r.2)
      else none := by
  rw [OnTrackAdded_eq]
  split
  · cases rangeCall env.callTrackAdded ts w.c.onTrackAdded w with
    | none => rfl
    | some r => simp [calls_locks]
  · rfl

theorem OnTrackMuted_calls_eq (env : Env F U E) (trackID : GoString) (w : World F U) :
    (OnTrackMuted env trackID w).map (fun r => (r.1, calls r.2)) =
      if w.c.mu.writer = false then
        (rangeCall env.callString trackID w.c.onTrackMuted w).map fun r => (r.1, calls r.2)
      else none := by
  rw [OnTrackMuted_eq]
  split
  · cases rangeCall env.callString trackID w.c.onTrackMuted w with
    | none => rfl
    | some r => simp [calls_locks]
  · rfl

theorem OnTrackUnmuted_calls_eq (env : Env F U E) (trackID : GoString) (w : World F U) :
    (OnTrackUnmuted env trackID w).map (fun r => (r.1, calls r.2)) =
      if w.c.mu.writer = false then
        (rangeCall env.callString trackID w.c.onTrackUnmuted w).map fun r => (r.1, calls r.2)
      else none := by
  rw [OnTrackUnmuted_eq]
  split
  · cases rangeCall env.callString trackID w.c.onTrackUnmuted w with
    | none => rfl
    | some r => simp [calls_locks]
  · rfl

theorem OnTrackRemoved_calls_eq (env : Env F U E) (trackID : GoString) (w : World F U) :
    (OnTrackRemoved env trackID w).map (fun r => (r.1, calls r.2)) =
      if w.c.mu.writer = false then
        (rangeCall env.callString trackID w.c.onTrackRemoved w).map fun r => (r.1, calls r.2)
      else none := by
  rw [OnTrackRemoved_eq]
  split
  · cases rangeCall env.callString trackID w.c.onTrackRemoved w with
    | none => rfl
    | some r => simp [calls_locks]
  · rfl

/-! ## C14: handlers never run under the lock -/

/-- C14: every `SetOnX` and `AddOnX` takes the write lock and releases it before it returns
(`TakesWriteLock`); every `OnX` takes the read lock once, releases it before the first handler
is called and does not take it again (`LockReleasedBeforeCalls`), so that handlers which need
the lock free, such as one that calls `AddOnY` or `OnY`, return; and the handlers of a
dispatch find the mutex in the state it had before the dispatch (`HandlersFindLock`, on the
program `lockProbe` whose handlers record that state). -/
theorem handlers_never_run_under_the_lock (env : Env F U E) :
    ((∀ f, TakesWriteLock fun c : Callbacks F => c.SetOnError f) ∧
      (∀ f, TakesWriteLock fun c : Callbacks F => c.AddOnStop f) ∧
      (∀ f, TakesWriteLock fun c : Callbacks F => c.AddOnTrackSubscribed f) ∧
      (∀ f, TakesWriteLock fun c : Callbacks F => c.AddOnTrackForwardRTP f) ∧
      (∀ f, TakesWriteLock fun c : Callbacks F => c.AddOnTrackAdded f) ∧
      (∀ f, TakesWriteLock fun c : Callbacks F => c.AddOnTrackMuted f) ∧
      (∀ f, TakesWriteLock fun c : Callbacks F => c.AddOnTrackUnmuted f) ∧
      (∀ f, TakesWriteLock fun c : Callbacks F => c.AddOnTrackRemoved f) ∧
      (∀ f, TakesWriteLock fun c : Callbacks F => c.SetOnEOSSent f)) ∧
    ((∀ err, LockReleasedBeforeCalls (fun c => c.onError.toList)
        (fun f => env.callError f err) (OnError env err)) ∧
      LockReleasedBeforeCalls Callbacks.onStop
        (fun f w => (env.callStop f () w).map Prod.fst)
        (fun w => (OnStop env w).map fun r => (r.1, r.2.2)) ∧
      (∀ track pub rp, LockReleasedBeforeCalls Callbacks.onTrackSubscribed
        (fun f => env.callTrackSubscribed f (track, pub, rp)) (OnTrackSubscribed env track pub rp)) ∧
      (∀ track packet, LockReleasedBeforeCalls Callbacks.onTrackForwardRTP
        (fun f => env.callTrackForwardRTP f (track, packet)) (OnTrackForwardRTP env track packet)) ∧
      (∀ ts, LockReleasedBeforeCalls Callbacks.onTrackAdded
        (fun f => env.callTrackAdded f ts) (OnTrackAdded env ts)) ∧
      (∀ trackID, LockReleasedBeforeCalls Callbacks.onTrackMuted
        (fun f => env.callString f trackID) (OnTrackMuted env trackID)) ∧
      (∀ trackID, LockReleasedBeforeCalls Callbacks.onTrackUnmuted
        (fun f => env.callString f trackID) (OnTrackUnmuted env trackID)) ∧
      (∀ trackID, LockReleasedBeforeCalls Callbacks.onTrackRemoved
        (fun f => env.callString f trackID) (OnTrackRemoved env trackID)) ∧
      LockReleasedBeforeCalls (fun c => c.onEOSSent.toList)
        (fun f => env.callVoid f ()) (OnEOSSent env)) ∧
    ((∀ err, HandlersFindLock (fun c : Callbacks F => c.onError.toList)
        (OnError lockProbe err)) ∧
      HandlersFindLock (fun c : Callbacks F => c.onStop)
        (fun w => (OnStop lockProbe w).map fun r => (r.1, r.2.2)) ∧
      (∀ track pub rp, HandlersFindLock (fun c : Callbacks F => c.onTrackSubscribed)
        (OnTrackSubscribed lockProbe track pub rp)) ∧
      (∀ track packet, HandlersFindLock (fun c : Callbacks F => c.onTrackForwardRTP)
        (OnTrackForwardRTP lockProbe track packet)) ∧
      (∀ ts, HandlersFindLock (fun c : Callbacks F => c.onTrackAdded)
        (OnTrackAdded lockProbe ts)) ∧
      (∀ trackID, HandlersFindLock (fun c : Callbacks F => c.onTrackMuted)
        (OnTrackMuted lockProbe trackID)) ∧
      (∀ trackID, HandlersFindLock (fun c : Callbacks F => c.onTrackUnmuted)
        (OnTrackUnmuted lockProbe trackID)) ∧
      (∀ trackID, HandlersFindLock (fun c : Callbacks F => c.onTrackRemoved)
        (OnTrackRemoved lockProbe trackID)) ∧
      HandlersFindLock (fun c : Callbacks F => c.onEOSSent.toList)
        (OnEOSSent lockProbe)) := by
  refine ⟨⟨?_, ?_, ?_, ?_, ?_, ?_, ?_, ?_, ?_⟩, ⟨?_, ?_, ?_, ?_, ?_, ?_, ?_, ?_, ?_⟩,
    ⟨?_, ?_, ?_, ?_, ?_, ?_, ?_, ?_, ?_⟩⟩
  · exact fun f => takesWriteLock_of _ (fun c => { c with onError := f })
      (fun c h => SetOnError_eq c f h) (fun c h => SetOnError_none c f h) (fun _ => rfl)
  · exact fun f => takesWriteLock_of _ (fun c => { c with onStop := c.onStop ++ [f] })
      (fun c h => AddOnStop_eq c f h) (fun c h => AddOnStop_none c f h) (fun _ => rfl)
  · exact fun f => takesWriteLock_of _ (fun c => { c with onTrackSubscribed := c.onTrackSubscribed ++ [f] })
      (fun c h => AddOnTrackSubscribed_eq c f h) (fun c h => AddOnTrackSubscribed_none c f h) (fun _ => rfl)
  · exact fun f => takesWriteLock_of _ (fun c => { c with onTrackForwardRTP := c.onTrackForwardRTP ++ [f] })
      (fun c h => AddOnTrackForwardRTP_eq c f h) (fun c h => AddOnTrackForwardRTP_none c f h) (fun _ => rfl)
  · exact fun f => takesWriteLock_of _ (fun c => { c with onTrackAdded := c.onTrackAdded ++ [f] })
      (fun c h => AddOnTrackAdded_eq c f h) (fun c h => AddOnTrackAdded_none c f h) (fun _ => rfl)
  · exact fun f => takesWriteLock_of _ (fun c => { c with onTrackMuted := c.onTrackMuted ++ [f] })
      (fun c h => AddOnTrackMuted_eq c f h) (fun c h => AddOnTrackMuted_none c f h) (fun _ => rfl)
  · exact fun f => takesWriteLock_of _ (fun c => { c with onTrackUnmuted := c.onTrackUnmuted ++ [f] })
      (fun c h => AddOnTrackUnmuted_eq c f h) (fun c h => AddOnTrackUnmuted_none c f h) (fun _ => rfl)
  · exact fun f => takesWriteLock_of _ (fun c => { c with onTrackRemoved := c.onTrackRemoved ++ [f] })
      (fun c h => AddOnTrackRemoved_eq c f h) (fun c h => AddOnTrackRemoved_none c f h) (fun _ => rfl)
  · exact fun f => takesWriteLock_of _ (fun c => { c with onEOSSent := f })
      (fun c h => SetOnEOSSent_eq c f h) (fun c h => SetOnEOSSent_none c f h) (fun _ => rfl)
  · exact fun err => OnError_lockReleased env err
  · exact OnStop_lockReleased env
  · exact fun track pub rp => lockReleased_of_rangeCall _ env.callTrackSubscribed (track, pub, rp) _
      (fun w => OnTrackSubscribed_eq env track pub rp w)
  · exact fun track packet => lockReleased_of_rangeCall _ env.callTrackForwardRTP (track, packet) _
      (fun w => OnTrackForwardRTP_eq env track packet w)
  · exact fun ts => lockReleased_of_rangeCall _ env.callTrackAdded ts _
      (fun w => OnTrackAdded_eq env ts w)
  · exact fun trackID => lockReleased_of_rangeCall _ env.callString trackID _
      (fun w => OnTrackMuted_eq env trackID w)
  · exact fun trackID => lockReleased_of_rangeCall _ env.callString trackID _
      (fun w => OnTrackUnmuted_eq env trackID w)
  · exact fun trackID => lockReleased_of_rangeCall _ env.callString trackID _
      (fun w => OnTrackRemoved_eq env trackID w)
  · exact OnEOSSent_lockReleased env
  · exact fun err => OnError_handlersFindLock err
  · exact OnStop_handlersFindLock
  · exact fun track pub rp => handlersFindLock_of_rangeCall _ (track, pub, rp) _
      (fun w => OnTrackSubscribed_eq lockProbe track pub rp w)
  · exact fun track packet => handlersFindLock_of_rangeCall _ (track, packet) _
      (fun w => OnTrackForwardRTP_eq lockProbe track packet w)
  · exact fun ts => handlersFindLock_of_rangeCall _ ts _
      (fun w => OnTrackAdded_eq lockProbe ts w)
  · exact fun trackID => handlersFindLock_of_rangeCall _ trackID _
      (fun w => OnTrackMuted_eq lockProbe trackID w)
  · exact fun trackID => handlersFindLock_of_rangeCall _ trackID _
      (fun w => OnTrackUnmuted_eq lockProbe trackID w)
  · exact fun trackID => handlersFindLock_of_rangeCall _ trackID _
      (fun w => OnTrackRemoved_eq lockProbe trackID w)
  · exact OnEOSSent_handlersFindLock

/-- Witness of C14.  In the example program the muted-handler 1 calls `AddOnTrackMuted(9)`
from inside `OnTrackMuted`, which needs the lock free: the dispatch returns.  In the program
`nestedEnv` the muted-handler 1 calls `OnTrackUnmuted` from inside `OnTrackMuted`: the dispatch
returns and the unmuted-handlers 4 and 5 have run.  Two probes of a dispatch on a registry that
another reader holds find that one reader only.  `AddOnStop` does not return while a reader
holds the lock, and `OnTrackMuted` not while a writer does. -/
theorem handlers_never_run_under_the_lock_witness :
    (∃ w' events, OnTrackMuted exampleEnv (str "TR_a")
        ⟨{ (Callbacks.zero : Callbacks Nat) with onTrackMuted := [1, 4] }, []⟩ =
          some (w', events) ∧ w'.c.mu = RWMutex.unlocked) ∧
    OnTrackMuted nestedEnv (str "TR_a")
        ⟨{ (Callbacks.zero : Callbacks Nat) with
            onTrackMuted := [1], onTrackUnmuted := [4, 5] }, []⟩ =
      some (⟨{ (Callbacks.zero : Callbacks Nat) with
            onTrackMuted := [1], onTrackUnmuted := [4, 5] }, [4, 5]⟩,
        [Event.RLock, Event.RUnlock, Event.call 1 (str "TR_a") ()]) ∧
    OnTrackMuted (lockProbe : Env Nat (List RWMutex) Unit) (str "TR_a")
        ⟨{ (Callbacks.zero : Callbacks Nat) with mu := ⟨false, 1⟩, onTrackMuted := [4, 5] }, []⟩ =
      some (⟨{ (Callbacks.zero : Callbacks Nat) with mu := ⟨false, 1⟩, onTrackMuted := [4, 5] },
          [⟨false, 1⟩, ⟨false, 1⟩]⟩,
        [Event.RLock, Event.RUnlock, Event.call 4 (str "TR_a") (),
          Event.call 5 (str "TR_a") ()]) ∧
    ({ (Callbacks.zero : Callbacks Nat) with mu := ⟨false, 1⟩ } : Callbacks Nat).AddOnStop 4 =
      none ∧
    OnTrackMuted exampleEnv (str "TR_a")
        ⟨{ (Callbacks.zero : Callbacks Nat) with mu := ⟨true, 0⟩, onTrackMuted := [4] }, []⟩ =
      none :=
  ⟨((handlers_never_run_under_the_lock exampleEnv).2.1.2.2.2.2.2.1 (str "TR_a")).2.2
      ⟨{ (Callbacks.zero : Callbacks Nat) with onTrackMuted := [1, 4] }, []⟩ rfl
      (fun f _ w1 h1 =>
        (exampleEnv_callString_appends (str "TR_a") f w1 h1).imp fun _ h => ⟨h.1, h.2.1⟩),
    by decide, by decide, by decide, by decide⟩

/-! ## C17: the event kinds are isolated -/

/-- C17: every `SetOnX` and `AddOnX` changes its own slot or list, the list by appending the new
handler behind the existing ones, and nothing else of the registry (`ChangesOnly`); every `OnX`
calls the handlers of its own slot or list and no other, and leaves the registry as it was
when its handlers do not change the registry (`InvokesOnly`); so a handler added with
`AddOnTrackUnmuted` is called neither by `OnTrackMuted` nor by `OnTrackRemoved`. -/
theorem event_kinds_are_isolated (env : Env F U E) :
    ((∀ f, ChangesOnly (fun c : Callbacks F => c.SetOnError f)
        (fun c => { c with onError := f })) ∧
      (∀ f, ChangesOnly (fun c : Callbacks F => c.AddOnStop f)
        (fun c => { c with onStop := c.onStop ++ [f] })) ∧
      (∀ f, ChangesOnly (fun c : Callbacks F => c.AddOnTrackSubscribed f)
        (fun c => { c with onTrackSubscribed := c.onTrackSubscribed ++ [f] })) ∧
      (∀ f, ChangesOnly (fun c : Callbacks F => c.AddOnTrackForwardRTP f)
        (fun c => { c with onTrackForwardRTP := c.onTrackForwardRTP ++ [f] })) ∧
      (∀ f, ChangesOnly (fun c : Callbacks F => c.AddOnTrackAdded f)
        (fun c => { c with onTrackAdded := c.onTrackAdded ++ [f] })) ∧
      (∀ f, ChangesOnly (fun c : Callbacks F => c.AddOnTrackMuted f)
        (fun c => { c with onTrackMuted := c.onTrackMuted ++ [f] })) ∧
      (∀ f, ChangesOnly (fun c : Callbacks F => c.AddOnTrackUnmuted f)
        (fun c => { c with onTrackUnmuted := c.onTrackUnmuted ++ [f] })) ∧
      (∀ f, ChangesOnly (fun c : Callbacks F => c.AddOnTrackRemoved f)
        (fun c => { c with onTrackRemoved := c.onTrackRemoved ++ [f] })) ∧
      (∀ f, ChangesOnly (fun c : Callbacks F => c.SetOnEOSSent f)
        (fun c => { c with onEOSSent := f }))) ∧
    ((∀ err, InvokesOnly (fun c => c.onError.toList) (fun f => env.callError f err)
        (fun w => (OnError env err w).map fun r => (r.1, calls r.2))) ∧
      InvokesOnly Callbacks.onStop (fun f w => (env.callStop f () w).map Prod.fst)
        (fun w => (OnStop env w).map fun r => (r.1, calls r.2.2)) ∧
      (∀ track pub rp, InvokesOnly Callbacks.onTrackSubscribed (fun f => env.callTrackSubscribed f (track, pub, rp))
        (fun w => (OnTrackSubscribed env track pub rp w).map fun r => (r.1, calls r.2))) ∧
      (∀ track packet, InvokesOnly Callbacks.onTrackForwardRTP (fun f => env.callTrackForwardRTP f (track, packet))
        (fun w => (OnTrackForwardRTP env track packet w).map fun r => (r.1, calls r.2))) ∧
      (∀ ts, InvokesOnly Callbacks.onTrackAdded (fun f => env.callTrackAdded f ts)
        (fun w => (OnTrackAdded env ts w).map fun r => (r.1, calls r.2))) ∧
      (∀ trackID, InvokesOnly Callbacks.onTrackMuted (fun f => env.callString f trackID)
        (fun w => (OnTrackMuted env trackID w).map fun r => (r.1, calls r.2))) ∧
      (∀ trackID, InvokesOnly Callbacks.onTrackUnmuted (fun f => env.callString f trackID)
        (fun w => (OnTrackUnmuted env trackID w).map fun r => (r.1, calls r.2))) ∧
      (∀ trackID, InvokesOnly Callbacks.onTrackRemoved (fun f => env.callString f trackID)
        (fun w => (OnTrackRemoved env trackID w).map fun r => (r.1, calls r.2))) ∧
      InvokesOnly (fun c => c.onEOSSent.toList) (fun f => env.callVoid f ())
        (fun w => (OnEOSSent env w).map fun r => (r.1, calls r.2))) ∧
    (∀ (c c' : Callbacks F) (f : F) (rest : U) (trackID : GoString) (w' : World F U)
        (events : List (Event F GoString Unit)),
      c.AddOnTrackUnmuted f = some c' →
        (OnTrackMuted env trackID ⟨c', rest⟩ = some (w', events) →
          calls events = c.onTrackMuted) ∧
        (OnTrackRemoved env trackID ⟨c', rest⟩ = some (w', events) →
          calls events = c.onTrackRemoved)) := by
  have hM : ∀ trackID, InvokesOnly Callbacks.onTrackMuted (fun f => env.callString f trackID)
      (fun w => (OnTrackMuted env trackID w).map fun r => (r.1, calls r.2)) :=
    fun trackID => invokesOnly_of_rangeCall _ env.callString trackID _
      (fun w => OnTrackMuted_calls_eq env trackID w)
  have hR : ∀ trackID, InvokesOnly Callbacks.onTrackRemoved (fun f => env.callString f trackID)
      (fun w => (OnTrackRemoved env trackID w).map fun r => (r.1, calls r.2)) :=
    fun trackID => invokesOnly_of_rangeCall _ env.callString trackID _
      (fun w => OnTrackRemoved_calls_eq env trackID w)
  have hU : ∀ f, ChangesOnly (fun c : Callbacks F => c.AddOnTrackUnmuted f)
      (fun c => { c with onTrackUnmuted := c.onTrackUnmuted ++ [f] }) :=
    fun f => changesOnly_of _ _ (fun c h => AddOnTrackUnmuted_eq c f h)
      (fun c h => AddOnTrackUnmuted_none c f h)
  refine ⟨⟨?_, ?_, ?_, ?_, ?_, ?_, ?_, ?_, ?_⟩, ⟨?_, ?_, ?_, ?_, ?_, ?_, ?_, ?_, ?_⟩, ?_⟩
  · exact fun f => changesOnly_of _ _ (fun c h => SetOnError_eq c f h)
      (fun c h => SetOnError_none c f h)
  · exact fun f => changesOnly_of _ _ (fun c h => AddOnStop_eq c f h)
      (fun c h => AddOnStop_none c f h)
  · exact fun f => changesOnly_of _ _ (fun c h => AddOnTrackSubscribed_eq c f h)
      (fun c h => AddOnTrackSubscribed_none c f h)
  · exact fun f => changesOnly_of _ _ (fun c h => AddOnTrackForwardRTP_eq c f h)
      (fun c h => AddOnTrackForwardRTP_none c f h)
  · exact fun f => changesOnly_of _ _ (fun c h => AddOnTrackAdded_eq c f h)
      (fun c h => AddOnTrackAdded_none c f h)
  · exact fun f => changesOnly_of _ _ (fun c h => AddOnTrackMuted_eq c f h)
      (fun c h => AddOnTrackMuted_none c f h)
  · exact fun f => changesOnly_of _ _ (fun c h => AddOnTrackUnmuted_eq c f h)
      (fun c h => AddOnTrackUnmuted_none c f h)
  · exact fun f => changesOnly_of _ _ (fun c h => AddOnTrackRemoved_eq c f h)
      (fun c h => AddOnTrackRemoved_none c f h)
  · exact fun f => changesOnly_of _ _ (fun c h => SetOnEOSSent_eq c f h)
      (fun c h => SetOnEOSSent_none c f h)
  · exact fun err => OnError_invokesOnly env err
  · exact invokesOnly_of_rangeCall _ (fun f a w => (env.callStop f a w).map Prod.fst) () _
      (OnStop_calls_eq env)
  · exact fun track pub rp => invokesOnly_of_rangeCall _ env.callTrackSubscribed (track, pub, rp) _
      (fun w => OnTrackSubscribed_calls_eq env track pub rp w)
  · exact fun track packet => invokesOnly_of_rangeCall _ env.callTrackForwardRTP (track, packet) _
      (fun w => OnTrackForwardRTP_calls_eq env track packet w)
  · exact fun ts => invokesOnly_of_rangeCall _ env.callTrackAdded ts _
      (fun w => OnTrackAdded_calls_eq env ts w)
  · exact fun trackID => invokesOnly_of_rangeCall _ env.callString trackID _
      (fun w => OnTrackMuted_calls_eq env trackID w)
  · exact fun trackID => invokesOnly_of_rangeCall _ env.callString trackID _
      (fun w => OnTrackUnmuted_calls_eq env trackID w)
  · exact fun trackID => invokesOnly_of_rangeCall _ env.callString trackID _
      (fun w => OnTrackRemoved_calls_eq env trackID w)
  · exact OnEOSSent_invokesOnly env
  · intro c c' f rest trackID w' events hadd
    have hc : c' = { c with onTrackUnmuted := c.onTrackUnmuted ++ [f] } := (hU f c).2 c' hadd
    subst hc
    constructor
    · intro hrun
      exact (hM trackID).1 _ w' (calls events) (by beta_reduce; rw [hrun]; rfl)
    · intro hrun
      exact (hR trackID).1 _ w' (calls events) (by beta_reduce; rw [hrun]; rfl)

/-- Witness of C17: after `AddOnTrackMuted(4)` and `AddOnTrackUnmuted(7)` on the zero-value
registry, `OnTrackMuted` calls handler 4 only, `OnTrackUnmuted` handler 7 only and
`OnTrackRemoved` none, and each leaves the registry as it was. -/
theorem event_kinds_are_isolated_witness :
    (((Callbacks.zero : Callbacks Nat).AddOnTrackMuted 4).bind fun c =>
        c.AddOnTrackUnmuted 7) =
      some { (Callbacks.zero : Callbacks Nat) with onTrackMuted := [4], onTrackUnmuted := [7] } ∧
    (∀ w' events,
      OnTrackMuted exampleEnv (str "TR_a")
          ⟨{ (Callbacks.zero : Callbacks Nat) with onTrackMuted := [4], onTrackUnmuted := [7] },
            []⟩ = some (w', events) →
        calls events = [4]) ∧
    (OnTrackMuted exampleEnv (str "TR_a")
        ⟨{ (Callbacks.zero : Callbacks Nat) with onTrackMuted := [4], onTrackUnmuted := [7] },
          []⟩).map (fun r => (r.1.c, r.1.rest, calls r.2)) =
      some ({ (Callbacks.zero : Callbacks Nat) with onTrackMuted := [4], onTrackUnmuted := [7] },
        [4], [4]) ∧
    (OnTrackUnmuted exampleEnv (str "TR_a")
        ⟨{ (Callbacks.zero : Callbacks Nat) with onTrackMuted := [4], onTrackUnmuted := [7] },
          []⟩).map (fun r => (r.1.c, r.1.rest, calls r.2)) =
      some ({ (Callbacks.zero : Callbacks Nat) with onTrackMuted := [4], onTrackUnmuted := [7] },
        [7], [7]) ∧
    (OnTrackRemoved exampleEnv (str "TR_a")
        ⟨{ (Callbacks.zero : Callbacks Nat) with onTrackMuted := [4], onTrackUnmuted := [7] },
          []⟩).map (fun r => (r.1.c, r.1.rest, calls r.2)) =
      some ({ (Callbacks.zero : Callbacks Nat) with onTrackMuted := [4], onTrackUnmuted := [7] },
        [], []) :=
  ⟨by decide,
    fun w' events h =>
      ((event_kinds_are_isolated exampleEnv).2.2
        { (Callbacks.zero : Callbacks Nat) with onTrackMuted := [4] }
        { (Callbacks.zero : Callbacks Nat) with onTrackMuted := [4], onTrackUnmuted := [7] }
        7 [] (str "TR_a") w' events (by decide)).1 h,
    by decide, by decide, by decide⟩

end gstreamer
